import Mathlib

/-!
# Verification of the micropayment-core script layer

Shallow embedding of `micropayment_core/scripts.py`: compilation of the
deposit and commit script templates, word-level decoding of Bitcoin Script
bytecode, template validation with `deadbeef` wildcard slots, the sequence
value parser, field accessors, the payout spend-secret extraction, the
finalize-commit payer-signature gate, the change-recover preimage
precondition, and the scoped script-handler registry.

Byte strings are `List Nat` (each entry a byte value). Fallible Python
code is rendered with `Except ScriptError`. Host-library (pycoin)
primitives used by the source are embedded from their documented
behaviour: word decoding (`tools.get_opcode`), minimal push assembly
(`tools.compile`), signed little-endian script integers
(`tools.int_from_script_bytes`), and DER signature splitting
(`parse_signature_blob`). External collaborators (sighash computation,
ECDSA verification, key lookup, transaction loading) are taken as
parameters, following the spec's collaborator interfaces.
-/

/-- Errors raised by the script layer.  `invalidScript` carries the
untrusted script (Python carries its hex); `invalidPayerSignature`
carries the reason string; `malformedScript` stands for the failure of
word decoding on truncated bytecode (a low-level exception in Python,
`MalformedScript` in the spec); `outOfRange` is `get_word`'s failure on a
word index past the end (Python raises `ValueError(index)`, the spec
names it `OutOfRange`); `typeError` and `assertionError` stand for
Python `TypeError` and `AssertionError`; `unexpectedDER` is the host
library's DER decode failure. -/
inductive ScriptError where
  | invalidScript : List Nat → ScriptError
  | invalidSequenceValue : ScriptError
  | invalidPayerSignature : String → ScriptError
  | malformedScript : ScriptError
  | outOfRange : ScriptError
  | typeError : ScriptError
  | assertionError : ScriptError
  | unexpectedDER : ScriptError
  deriving DecidableEq, Repr

/-- A decoded script word: the leading opcode byte and, for push opcodes
(0..78), the pushed data.  Mirrors the `(opcode, data)` pair returned by
pycoin `tools.get_opcode` (`data` is `None` for non-push opcodes). -/
structure Word where
  opcode : Nat
  data : Option (List Nat)
  deriving DecidableEq, Repr

/-- Decode one word at the front of a script, as pycoin
`tools.get_opcode` does at a program counter: opcodes 0..75 push that
many following bytes, 76/77/78 (`OP_PUSHDATA1/2/4`) read a 1/2/4-byte
little-endian length and push that many bytes, all other opcodes carry
no data.  Returns the word, the remaining bytes, and an overrun flag
recording that the declared push size exceeded the bytes available (in
Python the program counter then lands beyond the end of the script while
the pushed data is silently truncated).  A missing length byte is a
decode failure (`malformedScript`). -/
def decodeWord : List Nat → Except ScriptError (Word × List Nat × Bool)
  | [] => .error .malformedScript
  | op :: t =>
    if op ≤ 75 then
      .ok (⟨op, some (t.take op)⟩, t.drop op, decide (t.length < op))
    else if op = 76 then
      match t with
      | [] => .error .malformedScript
      | sz :: t2 => .ok (⟨op, some (t2.take sz)⟩, t2.drop sz, decide (t2.length < sz))
    else if op = 77 then
      match t with
      | a :: b :: t2 =>
        .ok (⟨op, some (t2.take (a + 256 * b))⟩, t2.drop (a + 256 * b),
             decide (t2.length < a + 256 * b))
      | _ => .error .malformedScript
    else if op = 78 then
      match t with
      | a :: b :: c :: d :: t2 =>
        .ok (⟨op, some (t2.take (a + 256 * b + 65536 * c + 16777216 * d))⟩,
             t2.drop (a + 256 * b + 65536 * c + 16777216 * d),
             decide (t2.length < a + 256 * b + 65536 * c + 16777216 * d))
      | _ => .error .malformedScript
    else .ok (⟨op, none⟩, t, false)

theorem decodeWord_rest_length {l : List Nat} {w : Word} {rest : List Nat} {ov : Bool}
    (h : decodeWord l = .ok (w, rest, ov)) : rest.length < l.length := by
  match l with
  | [] => simp [decodeWord] at h
  | op :: t =>
    simp only [decodeWord] at h
    split at h
    · simp only [Except.ok.injEq, Prod.mk.injEq] at h
      have : rest = t.drop op := h.2.1.symm ▸ rfl
      simp [this, List.length_drop]
      omega
    · split at h
      · split at h
        · exact absurd h (by simp)
        · simp only [Except.ok.injEq, Prod.mk.injEq] at h
          rename_i sz t2
          have : rest = t2.drop sz := h.2.1.symm ▸ rfl
          simp [this, List.length_drop]
          omega
      · split at h
        · split at h
          · rename_i a b t2
            simp only [Except.ok.injEq, Prod.mk.injEq] at h
            have : rest = t2.drop (a + 256 * b) := h.2.1.symm ▸ rfl
            simp [this, List.length_drop]
            omega
          · exact absurd h (by simp)
        · split at h
          · split at h
            · rename_i a b c d t2
              simp only [Except.ok.injEq, Prod.mk.injEq] at h
              have : rest = t2.drop (a + 256 * b + 65536 * c + 16777216 * d) :=
                h.2.1.symm ▸ rfl
              simp [this, List.length_drop]
              omega
            · exact absurd h (by simp)
          · simp only [Except.ok.injEq, Prod.mk.injEq] at h
            have : rest = t := h.2.1.symm ▸ rfl
            simp [this]

/-- The opcode of a decoded word is the leading byte. -/
theorem decodeWord_opcode {b : Nat} {l : List Nat} {w : Word} {rest : List Nat} {ov : Bool}
    (h : decodeWord (b :: l) = .ok (w, rest, ov)) : w.opcode = b := by
  simp only [decodeWord] at h
  split at h
  · simp only [Except.ok.injEq, Prod.mk.injEq] at h
    rw [← h.1]
  · split at h
    · split at h
      · exact absurd h (by simp)
      · simp only [Except.ok.injEq, Prod.mk.injEq] at h
        rw [← h.1]
    · split at h
      · split at h
        · simp only [Except.ok.injEq, Prod.mk.injEq] at h
          rw [← h.1]
        · exact absurd h (by simp)
      · split at h
        · split at h
          · simp only [Except.ok.injEq, Prod.mk.injEq] at h
            rw [← h.1]
          · exact absurd h (by simp)
        · simp only [Except.ok.injEq, Prod.mk.injEq] at h
          rw [← h.1]

/-- Value of a little-endian byte list (unsigned). -/
def leToNat (s : List Nat) : Nat := s.foldr (fun b acc => b + 256 * acc) 0

/-- Little-endian base-256 digits of a natural number (no digits for 0),
as pycoin accumulates them when encoding a script integer. -/
def natToLE : Nat → List Nat
  | 0 => []
  | n + 1 => ((n + 1) % 256) :: natToLE ((n + 1) / 256)
termination_by n => n
decreasing_by exact Nat.div_lt_self (Nat.succ_pos _) (by omega)

theorem natToLE_pos {n : Nat} (h : 0 < n) :
    natToLE n = n % 256 :: natToLE (n / 256) := by
  match n, h with
  | m + 1, _ => rw [natToLE]

theorem leToNat_append_zero (s : List Nat) : leToNat (s ++ [0]) = leToNat s := by
  induction s with
  | nil => simp [leToNat]
  | cons b t ih =>
    simp only [leToNat, List.cons_append, List.foldr_cons] at ih ⊢
    omega

theorem leToNat_natToLE (n : Nat) : leToNat (natToLE n) = n := by
  induction n using Nat.strong_induction_on with
  | _ n ih =>
    match n with
    | 0 => simp [natToLE, leToNat]
    | m + 1 =>
      rw [natToLE_pos (Nat.succ_pos m)]
      have hlt : (m + 1) / 256 < m + 1 := Nat.div_lt_self (Nat.succ_pos m) (by omega)
      simp only [leToNat, List.foldr_cons] at *
      rw [ih _ hlt]
      omega

theorem natToLE_length_le {k n : Nat} (h : n < 256 ^ k) : (natToLE n).length ≤ k := by
  induction k generalizing n with
  | zero =>
    simp at h
    subst h
    simp [natToLE]
  | succ k ih =>
    match n with
    | 0 => simp [natToLE]
    | m + 1 =>
      rw [natToLE_pos (Nat.succ_pos m)]
      simp only [List.length_cons]
      have : (m + 1) / 256 < 256 ^ k := by
        rw [Nat.div_lt_iff_lt_mul (by omega)]
        calc m + 1 < 256 ^ (k + 1) := h
        _ = 256 ^ k * 256 := by ring
      exact Nat.succ_le_succ (ih this)

/-- Encode a positive integer as Bitcoin script bytes: little-endian with
a zero byte appended when the top byte would set the sign bit (pycoin's
script integer encoding used by `tools.compile` for integer tokens). -/
def intToScriptBytes (n : Nat) : List Nat :=
  if 128 ≤ (natToLE n).getLastD 0 then natToLE n ++ [0] else natToLE n

/-- Decode Bitcoin script bytes as a signed little-endian integer: the
high bit of the final byte is the sign (pycoin
`tools.int_from_script_bytes`). -/
def scriptBytesToInt (s : List Nat) : Int :=
  match s.getLast? with
  | none => 0
  | some lb =>
    let body := s.dropLast ++ [if 128 ≤ lb then lb - 128 else lb]
    if 128 ≤ lb then -(leToNat body : Int) else (leToNat body : Int)

theorem scriptBytesToInt_intToScriptBytes {n : Nat} (h : 0 < n) :
    scriptBytesToInt (intToScriptBytes n) = (n : Int) := by
  have hne : natToLE n ≠ [] := by
    rw [natToLE_pos h]
    simp
  unfold intToScriptBytes
  split
  · rename_i htop
    rw [scriptBytesToInt]
    rw [List.getLast?_concat]
    simp only [List.dropLast_concat]
    norm_num
    rw [leToNat_append_zero, leToNat_natToLE]
  · rename_i htop
    rw [scriptBytesToInt]
    rw [List.getLast?_eq_getLast _ hne]
    simp only []
    have hlast : (natToLE n).getLast hne = (natToLE n).getLastD 0 := by
      rw [List.getLastD_eq_getLast?, List.getLast?_eq_getLast _ hne]
      rfl
    rw [hlast]
    rw [if_neg htop, if_neg htop]
    rw [← hlast, List.dropLast_append_getLast hne, leToNat_natToLE]

theorem intToScriptBytes_length {n : Nat} (h : n ≤ 65535) :
    (intToScriptBytes n).length ≤ 3 := by
  have : n < 256 ^ 2 := by omega
  have hlen := natToLE_length_le this
  unfold intToScriptBytes
  split <;> simp <;> omega

theorem intToScriptBytes_ne_nil {n : Nat} (h : 0 < n) : intToScriptBytes n ≠ [] := by
  have hne : natToLE n ≠ [] := by
    rw [natToLE_pos h]
    simp
  unfold intToScriptBytes
  split <;> simp [hne]

/-- Minimal push encoding of a data blob, as pycoin `tools.compile`
emits for a hex-literal token: lengths 0..75 use the length itself as
opcode, 76..255 use `OP_PUSHDATA1`, 256..65535 use `OP_PUSHDATA2`, and
larger blobs use `OP_PUSHDATA4` (little-endian length fields). -/
def encodePush (d : List Nat) : List Nat :=
  if d.length ≤ 75 then d.length :: d
  else if d.length ≤ 255 then 76 :: d.length :: d
  else if d.length ≤ 65535 then 77 :: (d.length % 256) :: (d.length / 256) :: d
  else 78 :: (d.length % 256) :: (d.length / 256 % 256) :: (d.length / 65536 % 256) ::
       (d.length / 16777216) :: d

/-- Bytes emitted by pycoin `tools.compile` for a decimal integer token:
`"0"` resolves to `OP_0` through the opcode table, `"1"`..`"16"` resolve
to `OP_1`..`OP_16`, and larger integers are pushed as script integer
bytes. -/
def compileIntToken (n : Nat) : List Nat :=
  if n = 0 then [0]
  else if n ≤ 16 then [80 + n]
  else encodePush (intToScriptBytes n)

/-- One whitespace-separated token of a script template as classified by
pycoin `tools.compile`: an opcode name (resolved to its byte), a decimal
integer, or a hex data literal (resolved to bytes).  The source passes
the template fields dynamically as strings; the classification of each
concrete field is fixed here by the constructor. -/
inductive Token where
  | op : Nat → Token
  | num : Nat → Token
  | data : List Nat → Token
  deriving DecidableEq, Repr

/-- Bytes emitted for one token. -/
def encodeToken : Token → List Nat
  | .op c => [c]
  | .num n => compileIntToken n
  | .data d => encodePush d

/-- The word obtained by decoding an encoded token (note `OP_0` is the
push opcode 0, so it decodes with empty data). -/
def tokenWord : Token → Word
  | .op c => if c = 0 then ⟨0, some []⟩ else ⟨c, none⟩
  | .num n =>
    if n = 0 then ⟨0, some []⟩
    else if n ≤ 16 then ⟨80 + n, none⟩
    else ⟨(intToScriptBytes n).length, some (intToScriptBytes n)⟩
  | .data d =>
    if d.length ≤ 75 then ⟨d.length, some d⟩
    else if d.length ≤ 255 then ⟨76, some d⟩
    else ⟨77, some d⟩

/-- Well-formedness of a token as used by the templates: opcode tokens
are `OP_0` or a non-push opcode, integer tokens fit a sequence value,
data blobs fit a `PUSHDATA2` push. -/
def wfToken : Token → Prop
  | .op c => c = 0 ∨ 79 ≤ c
  | .num n => n ≤ 65535
  | .data d => d.length ≤ 65535

instance : DecidablePred wfToken := fun t =>
  match t with
  | .op c => inferInstanceAs (Decidable (c = 0 ∨ 79 ≤ c))
  | .num n => inferInstanceAs (Decidable (n ≤ 65535))
  | .data d => inferInstanceAs (Decidable (d.length ≤ 65535))

/-- Assemble a token sequence into bytecode (pycoin `tools.compile` over
the split template text). -/
def scriptCompile (ts : List Token) : List Nat :=
  ts.foldr (fun tk acc => encodeToken tk ++ acc) []

theorem scriptCompile_nil : scriptCompile [] = [] := rfl

theorem scriptCompile_cons (tk : Token) (ts : List Token) :
    scriptCompile (tk :: ts) = encodeToken tk ++ scriptCompile ts := rfl

theorem scriptCompile_append (a b : List Token) :
    scriptCompile (a ++ b) = scriptCompile a ++ scriptCompile b := by
  induction a with
  | nil => simp [scriptCompile]
  | cons tk t ih => simp [scriptCompile_cons, ih]

theorem encodeToken_ne_nil (tk : Token) : encodeToken tk ≠ [] := by
  match tk with
  | .op c => simp [encodeToken]
  | .num n =>
    simp only [encodeToken, compileIntToken]
    split
    · simp
    · split
      · simp
      · simp only [encodePush]
        split
        · simp
        · split
          · simp
          · split <;> simp
  | .data d =>
    simp only [encodeToken, encodePush]
    split
    · simp
    · split
      · simp
      · split <;> simp

theorem decode_encodePush {d : List Nat} (h : d.length ≤ 65535) (rest : List Nat) :
    decodeWord (encodePush d ++ rest) =
      .ok (tokenWord (.data d), rest, false) := by
  by_cases h75 : d.length ≤ 75
  · have hnov : ¬ ((d ++ rest).length < d.length) := by simp
    simp [encodePush, if_pos h75, decodeWord, tokenWord, List.take_left, List.drop_left, hnov]
  · by_cases h255 : d.length ≤ 255
    · have hnov : ¬ ((d ++ rest).length < d.length) := by simp
      simp [encodePush, if_neg h75, if_pos h255, decodeWord, tokenWord,
        List.take_left, List.drop_left, hnov]
    · have hsz : d.length % 256 + 256 * (d.length / 256) = d.length := Nat.mod_add_div _ _
      have hnov : ¬ ((d ++ rest).length < d.length % 256 + 256 * (d.length / 256)) := by
        rw [hsz]
        simp
      simp [encodePush, if_neg h75, if_neg h255, if_pos h, decodeWord, tokenWord, hsz,
        List.take_left, List.drop_left, hnov]

theorem decode_encodeToken {tk : Token} (h : wfToken tk) (rest : List Nat) :
    decodeWord (encodeToken tk ++ rest) = .ok (tokenWord tk, rest, false) := by
  match tk with
  | .op c =>
    rcases h with h0 | h79
    · subst h0
      simp [encodeToken, decodeWord, tokenWord]
    · have h1 : ¬ (c ≤ 75) := by omega
      have h2 : ¬ (c = 76) := by omega
      have h3 : ¬ (c = 77) := by omega
      have h4 : ¬ (c = 78) := by omega
      have h5 : ¬ (c = 0) := by omega
      simp [encodeToken, decodeWord, tokenWord, h1, h2, h3, h4, h5]
  | .num n =>
    by_cases h0 : n = 0
    · subst h0
      simp [encodeToken, compileIntToken, decodeWord, tokenWord]
    · by_cases h16 : n ≤ 16
      · have h1 : ¬ (80 + n ≤ 75) := by omega
        have h2 : ¬ (80 + n = 76) := by omega
        have h3 : ¬ (80 + n = 77) := by omega
        have h4 : ¬ (80 + n = 78) := by omega
        simp [encodeToken, compileIntToken, decodeWord, tokenWord, h0, h16, h1, h2, h3, h4]
      · have hw : wfToken (.num n) := h
        simp only [wfToken] at hw
        have hlen : (intToScriptBytes n).length ≤ 3 := intToScriptBytes_length hw
        simp only [encodeToken, compileIntToken, if_neg h0, if_neg h16]
        rw [decode_encodePush (by omega)]
        simp [tokenWord, h0, h16, (by omega : (intToScriptBytes n).length ≤ 75)]
  | .data d => exact decode_encodePush h rest

/-- The sentinel bytes of the wildcard placeholder `deadbeef`. -/
def deadbeefBytes : List Nat := [222, 173, 190, 239]

/-- One-word-at-a-time walk of `_validate` (scripts.py lines 680-693):
both cursors decode a word per iteration; a reference word whose data is
the `deadbeef` sentinel is skipped (any candidate word accepted),
otherwise opcode and data must be equal; when either declared push size
overran the end of its script the Python cursor lands past the end and
the final cursor check fails, yielding `InvalidScript`.  `u0` is the
untrusted script carried into the error.  The fuel argument only bounds
the iteration count; each iteration consumes at least one candidate
byte, so any fuel above the candidate length is equivalent
(`validateLoopF_irrel`). -/
def validateLoopF (u0 : List Nat) : Nat → List Nat → List Nat → Except ScriptError Unit
  | 0, _, _ => .ok ()
  | _ + 1, [], [] => .ok ()
  | _ + 1, [], _ :: _ => .error (.invalidScript u0)
  | _ + 1, _ :: _, [] => .error (.invalidScript u0)
  | fuel + 1, r :: rt, c :: ct =>
    match decodeWord (r :: rt), decodeWord (c :: ct) with
    | .error e, _ => .error e
    | .ok _, .error e => .error e
    | .ok (rw, rrest, rov), .ok (cw, crest, cov) =>
      if rov || cov then .error (.invalidScript u0)
      else if rw.data = some deadbeefBytes then validateLoopF u0 fuel rrest crest
      else if rw.opcode = cw.opcode ∧ rw.data = cw.data then validateLoopF u0 fuel rrest crest
      else .error (.invalidScript u0)

theorem validateLoopF_cons (u0 : List Nat) (fuel : Nat) (r c : Nat) (rt ct : List Nat) :
    validateLoopF u0 (fuel + 1) (r :: rt) (c :: ct) =
      match decodeWord (r :: rt), decodeWord (c :: ct) with
      | .error e, _ => .error e
      | .ok _, .error e => .error e
      | .ok (rw, rrest, rov), .ok (cw, crest, cov) =>
        if rov || cov then .error (.invalidScript u0)
        else if rw.data = some deadbeefBytes then validateLoopF u0 fuel rrest crest
        else if rw.opcode = cw.opcode ∧ rw.data = cw.data then
          validateLoopF u0 fuel rrest crest
        else .error (.invalidScript u0) := rfl

theorem validateLoopF_irrel (u0 : List Nat) :
    ∀ {f1 f2 : Nat} {ref cand : List Nat}, cand.length < f1 → cand.length < f2 →
      validateLoopF u0 f1 ref cand = validateLoopF u0 f2 ref cand := by
  intro f1
  induction f1 with
  | zero => intro f2 ref cand h1 _; omega
  | succ g ih =>
    intro f2 ref cand h1 h2
    match f2, h2 with
    | h + 1, hh =>
      match ref, cand with
      | [], [] => rfl
      | [], _ :: _ => rfl
      | _ :: _, [] => rfl
      | r :: rt, c :: ct =>
        rw [validateLoopF_cons, validateLoopF_cons]
        match hr : decodeWord (r :: rt), hc : decodeWord (c :: ct) with
        | .error e, _ => rfl
        | .ok (rw, rrest, rov), .error e => rfl
        | .ok (rw, rrest, rov), .ok (cw, crest, cov) =>
          simp only []
          have hlt : crest.length < (c :: ct).length := decodeWord_rest_length hc
          simp only [List.length_cons] at hlt h1 hh
          split
          · rfl
          · split
            · exact ih (by omega) (by omega)
            · split
              · exact ih (by omega) (by omega)
              · rfl

/-- `_validate`'s cursor walk with sufficient fuel. -/
def validateLoop (u0 ref cand : List Nat) : Except ScriptError Unit :=
  validateLoopF u0 (cand.length + 1) ref cand

/-- `_validate(reference_script_hex, untrusted_script_hex)` (scripts.py
lines 680-693): word-by-word comparison of the untrusted script against
the reference, `deadbeef` reference pushes acting as wildcard slots. -/
def validateScript (ref cand : List Nat) : Except ScriptError Unit :=
  validateLoop cand ref cand

theorem validateLoop_step (u0 : List Nat) {r c : Token} (R C : List Nat)
    (hr : wfToken r) (hc : wfToken c)
    (hmatch : (tokenWord r).data = some deadbeefBytes ∨ tokenWord r = tokenWord c) :
    validateLoop u0 (encodeToken r ++ R) (encodeToken c ++ C) = validateLoop u0 R C := by
  obtain ⟨r0, rt0, hrr⟩ := List.exists_cons_of_ne_nil (encodeToken_ne_nil r)
  obtain ⟨c0, ct0, hcc⟩ := List.exists_cons_of_ne_nil (encodeToken_ne_nil c)
  have hdr : decodeWord (encodeToken r ++ R) = .ok (tokenWord r, R, false) :=
    decode_encodeToken hr R
  have hdc : decodeWord (encodeToken c ++ C) = .ok (tokenWord c, C, false) :=
    decode_encodeToken hc C
  rw [hrr] at hdr
  rw [hcc] at hdc
  unfold validateLoop
  rw [hrr, hcc]
  simp only [List.cons_append, List.length_cons] at hdr hdc ⊢
  rw [validateLoopF_cons, hdr, hdc]
  simp only [Bool.or_self]
  have hirrel : validateLoopF u0 ((ct0 ++ C).length + 1) R C =
      validateLoopF u0 (C.length + 1) R C := by
    apply validateLoopF_irrel
    · simp [List.length_append]
      omega
    · omega
  rw [if_neg (by simp)]
  rcases hmatch with hw | heq
  · rw [if_pos hw]
    exact hirrel
  · by_cases hw : (tokenWord r).data = some deadbeefBytes
    · rw [if_pos hw]
      exact hirrel
    · rw [if_neg hw, if_pos ⟨by rw [heq], by rw [heq]⟩]
      exact hirrel

/-- Pairwise condition under which `_validate` accepts a candidate word
against a reference word: both tokens well formed, and the reference
word either carries the `deadbeef` sentinel (wildcard slot) or decodes
to the same word as the candidate. -/
def tokMatch (r c : Token) : Prop :=
  wfToken r ∧ wfToken c ∧
    ((tokenWord r).data = some deadbeefBytes ∨ tokenWord r = tokenWord c)

instance : ∀ r c, Decidable (tokMatch r c) := fun r c =>
  inferInstanceAs (Decidable (_ ∧ _ ∧ (_ ∨ _)))

theorem validateLoop_walk (u0 : List Nat) {rts cts : List Token}
    (h : List.Forall₂ tokMatch rts cts) (R C : List Nat) :
    validateLoop u0 (scriptCompile rts ++ R) (scriptCompile cts ++ C) =
      validateLoop u0 R C := by
  induction h with
  | nil => simp [scriptCompile]
  | cons hpair htail ih =>
    rw [scriptCompile_cons, scriptCompile_cons, List.append_assoc, List.append_assoc]
    rw [validateLoop_step u0 _ _ hpair.1 hpair.2.1 hpair.2.2]
    exact ih

theorem validateLoop_nil (u0 : List Nat) : validateLoop u0 [] [] = .ok () := rfl

theorem validateLoop_ok (u0 : List Nat) {rts cts : List Token}
    (h : List.Forall₂ tokMatch rts cts) :
    validateLoop u0 (scriptCompile rts) (scriptCompile cts) = .ok () := by
  have := validateLoop_walk u0 h [] []
  simpa using this

/-- Iteration body of `get_word` (scripts.py lines 669-677): decode
words sequentially while the cursor is inside the script, stopping
after `index + 1` words; if fewer words are available the index is out
of range (Python raises `ValueError(index)`).  Fuel bounds iterations;
any fuel above the script length is equivalent. -/
def getWordF : Nat → List Nat → Nat → Except ScriptError Word
  | 0, _, _ => .error .outOfRange
  | _ + 1, [], _ => .error .outOfRange
  | fuel + 1, b :: t, i =>
    match decodeWord (b :: t) with
    | .error e => .error e
    | .ok (w, rest, _) => if i = 0 then .ok w else getWordF fuel rest (i - 1)

/-- `get_word(script_bin, index)`: the k-th word of a script. -/
def get_word (script : List Nat) (index : Nat) : Except ScriptError Word :=
  getWordF (script.length + 1) script index

theorem getWordF_irrel : ∀ {f1 f2 : Nat} {s : List Nat} {i : Nat},
    s.length < f1 → s.length < f2 → getWordF f1 s i = getWordF f2 s i := by
  intro f1
  induction f1 with
  | zero => intro f2 s i h1 _; omega
  | succ g ih =>
    intro f2 s i h1 h2
    match f2, h2 with
    | h + 1, hh =>
      match s with
      | [] => rfl
      | b :: t =>
        show (match decodeWord (b :: t) with
          | Except.error e => Except.error e
          | Except.ok (w, rest, _) =>
            if i = 0 then Except.ok w else getWordF g rest (i - 1)) =
          (match decodeWord (b :: t) with
          | Except.error e => Except.error e
          | Except.ok (w, rest, _) =>
            if i = 0 then Except.ok w else getWordF h rest (i - 1))
        match hd : decodeWord (b :: t) with
        | .error e => rfl
        | .ok (w, rest, ov) =>
          simp only []
          have hlt := decodeWord_rest_length hd
          simp only [List.length_cons] at hlt h1 hh
          split
          · rfl
          · exact ih (by omega) (by omega)

/-- Full sequential decoding of a script into its word list; `none` when
some word fails to decode.  A final word whose declared push size
overruns the end still counts as a word, as in the Python loops. -/
def wordsOfF : Nat → List Nat → Option (List Word)
  | 0, _ => none
  | _ + 1, [] => some []
  | fuel + 1, b :: t =>
    match decodeWord (b :: t) with
    | .error _ => none
    | .ok (w, rest, _) => (wordsOfF fuel rest).map (fun ws => w :: ws)

/-- The word list of a script, when it decodes completely. -/
def wordsOf (s : List Nat) : Option (List Word) := wordsOfF (s.length + 1) s

theorem wordsOfF_irrel : ∀ {f1 f2 : Nat} {s : List Nat},
    s.length < f1 → s.length < f2 → wordsOfF f1 s = wordsOfF f2 s := by
  intro f1
  induction f1 with
  | zero => intro f2 s h1 _; omega
  | succ g ih =>
    intro f2 s h1 h2
    match f2, h2 with
    | h + 1, hh =>
      match s with
      | [] => rfl
      | b :: t =>
        show (match decodeWord (b :: t) with
          | Except.error _ => none
          | Except.ok (w, rest, _) => (wordsOfF g rest).map (fun ws => w :: ws)) =
          (match decodeWord (b :: t) with
          | Except.error _ => none
          | Except.ok (w, rest, _) => (wordsOfF h rest).map (fun ws => w :: ws))
        match hd : decodeWord (b :: t) with
        | .error e => rfl
        | .ok (w, rest, ov) =>
          simp only []
          have hlt := decodeWord_rest_length hd
          simp only [List.length_cons] at hlt h1 hh
          rw [@ih h rest (by omega) (by omega)]

theorem wordsOf_compile {ts : List Token} (h : ∀ tk ∈ ts, wfToken tk) :
    wordsOf (scriptCompile ts) = some (ts.map tokenWord) := by
  suffices hgen : ∀ fuel ts, (∀ tk ∈ ts, wfToken tk) →
      (scriptCompile ts).length < fuel →
      wordsOfF fuel (scriptCompile ts) = some (ts.map tokenWord) by
    exact hgen _ ts h (by omega)
  intro fuel
  induction fuel with
  | zero => intro ts h hlen; omega
  | succ g ih =>
    intro ts h hlen
    match ts with
    | [] => simp [scriptCompile, wordsOfF]
    | tk :: ts' =>
      rw [scriptCompile_cons] at hlen ⊢
      obtain ⟨b, t, hbt⟩ := List.exists_cons_of_ne_nil (encodeToken_ne_nil tk)
      have hdec : decodeWord (encodeToken tk ++ scriptCompile ts') =
          .ok (tokenWord tk, scriptCompile ts', false) :=
        decode_encodeToken (h tk (by simp)) _
      rw [hbt] at hdec hlen ⊢
      simp only [List.cons_append] at hdec hlen ⊢
      show (match decodeWord (b :: (t ++ scriptCompile ts')) with
        | Except.error _ => none
        | Except.ok (w, rest, _) => (wordsOfF g rest).map (fun ws => w :: ws)) =
        some ((tk :: ts').map tokenWord)
      rw [hdec]
      show (wordsOfF g (scriptCompile ts')).map (fun ws => tokenWord tk :: ws) =
        some ((tk :: ts').map tokenWord)
      simp only [List.length_cons, List.length_append] at hlen
      rw [ih ts' (fun x hx => h x (by simp [hx])) (by omega)]
      simp

theorem get_word_wordsOf {s : List Nat} {ws : List Word} (h : wordsOf s = some ws)
    (i : Nat) :
    get_word s i = (match ws.get? i with
      | some w => .ok w
      | none => .error .outOfRange) := by
  suffices hgen : ∀ fuel s ws i, s.length < fuel → wordsOfF fuel s = some ws →
      getWordF fuel s i = (match ws.get? i with
        | some w => .ok w
        | none => .error .outOfRange) by
    exact hgen _ s ws i (by omega) h
  intro fuel
  induction fuel with
  | zero => intro s ws i h1 _; omega
  | succ g ih =>
    intro s ws i h1 hw
    match s with
    | [] =>
      simp only [wordsOfF, Option.some.injEq] at hw
      subst hw
      simp [getWordF]
    | b :: t =>
      have hw' : (match decodeWord (b :: t) with
          | .error _ => none
          | .ok (w, rest, _) => (wordsOfF g rest).map (fun l => w :: l)) = some ws := hw
      show (match decodeWord (b :: t) with
        | Except.error e => Except.error e
        | Except.ok (w, rest, _) =>
          if i = 0 then Except.ok w else getWordF g rest (i - 1)) =
        (match ws.get? i with
        | some w => Except.ok w
        | none => Except.error ScriptError.outOfRange)
      match hd : decodeWord (b :: t) with
      | .error e => rw [hd] at hw'; simp at hw'
      | .ok (w, rest, ov) =>
        rw [hd] at hw'
        simp only [Option.map_eq_some'] at hw'
        obtain ⟨ws', hws', hcons⟩ := hw'
        subst hcons
        simp only []
        have hlt := decodeWord_rest_length hd
        simp only [List.length_cons] at hlt h1
        match i with
        | 0 => simp
        | j + 1 =>
          simp only [List.get?_cons_succ, Nat.add_sub_cancel, if_neg (Nat.succ_ne_zero j)]
          exact ih rest ws' j (by omega) hws'

/-- The `deadbeef` hex literal used for wildcard slots. -/
def dbTok : Token := .data deadbeefBytes

/-- Token sequence of `DEPOSIT_SCRIPT` (scripts.py lines 23-35) after
field substitution: `OP_IF 2 {payer} {payee} 2 OP_CHECKMULTISIG OP_ELSE
OP_IF OP_HASH160 {spend_secret_hash} OP_EQUALVERIFY {payer} OP_CHECKSIG
OP_ELSE {expire_time} OP_NOP3 OP_DROP {payer} OP_CHECKSIG OP_ENDIF
OP_ENDIF`.  The bare `2` tokens resolve through the opcode table to
`OP_2` (opcode 82).  Fields are dynamic strings in Python; here each
call site fixes the token kind of the value it passes. -/
def depositTokens (payer payee ssh expire : Token) : List Token :=
  [.op 99, .op 82, payer, payee, .op 82, .op 174,
   .op 103, .op 99, .op 169, ssh, .op 136, payer, .op 172,
   .op 103, expire, .op 178, .op 117, payer, .op 172, .op 104, .op 104]

/-- `compile_deposit_script` (scripts.py lines 208-227). -/
def compile_deposit_script (payer payee ssh expire : Token) : List Nat :=
  scriptCompile (depositTokens payer payee ssh expire)

/-- Token sequence of `COMMIT_SCRIPT` (scripts.py lines 36-45) after
field substitution: `OP_IF {delay_time} OP_NOP3 OP_DROP OP_HASH160
{spend_secret_hash} OP_EQUALVERIFY {payee} OP_CHECKSIG OP_ELSE
OP_HASH160 {revoke_secret_hash} OP_EQUALVERIFY {payer} OP_CHECKSIG
OP_ENDIF`. -/
def commitTokens (payer payee ssh rsh delay : Token) : List Token :=
  [.op 99, delay, .op 178, .op 117, .op 169, ssh, .op 136, payee, .op 172,
   .op 103, .op 169, rsh, .op 136, payer, .op 172, .op 104]

/-- `compile_commit_script` (scripts.py lines 230-251). -/
def compile_commit_script (payer payee ssh rsh delay : Token) : List Nat :=
  scriptCompile (commitTokens payer payee ssh rsh delay)

/-- The reference deposit script, compiled with `deadbeef` in every
field slot (scripts.py lines 89-91). -/
def depositReference : List Nat := compile_deposit_script dbTok dbTok dbTok dbTok

/-- The reference commit script, compiled with `deadbeef` in every
field slot (scripts.py lines 108-110). -/
def commitReference : List Nat := compile_commit_script dbTok dbTok dbTok dbTok dbTok

/-- `_parse_sequence_value(opcode, data, disassembled)` (scripts.py
lines 656-666).  `OP_0` decodes to 0, direct pushes to the signed
little-endian integer of their bytes, `OP_1`..`OP_16` to opcode minus
80; any other opcode leaves the value `None` and the Python range
comparison against `None` raises `TypeError` (so does
`int_from_script_bytes(None)` when a non-push word carries no data).
A decoded value outside `[0, 0xFFFF]` raises `InvalidSequenceValue`
(the disassembly payload is dropped here). -/
def _parse_sequence_value (opcode : Nat) (data : Option (List Nat)) :
    Except ScriptError Int :=
  let value : Option Int :=
    if opcode = 0 then some 0
    else if 0 < opcode ∧ opcode < 76 then data.map scriptBytesToInt
    else if 80 < opcode ∧ opcode < 97 then some ((opcode : Int) - 80)
    else none
  match value with
  | none => .error .typeError
  | some v => if 0 ≤ v ∧ v ≤ 65535 then .ok v else .error .invalidSequenceValue

/-- `validate_deposit_script(hex, validate_expire_time=False)`: only the
word-by-word template comparison (scripts.py line 92). -/
def validate_deposit_structure (s : List Nat) : Except ScriptError Unit :=
  validateScript depositReference s

/-- `get_deposit_expire_time` (scripts.py lines 194-198): validates the
template (without the sequence check), then parses word 14. -/
def get_deposit_expire_time (s : List Nat) : Except ScriptError Int := do
  validate_deposit_structure s
  let w ← get_word s 14
  _parse_sequence_value w.opcode w.data

/-- `validate_deposit_script` with `validate_expire_time=True`
(scripts.py lines 78-94). -/
def validate_deposit_script (s : List Nat) : Except ScriptError Unit := do
  validate_deposit_structure s
  let _ ← get_deposit_expire_time s
  pure ()

/-- `validate_commit_script(hex, validate_delay_time=False)`: only the
word-by-word template comparison (scripts.py line 111). -/
def validate_commit_structure (s : List Nat) : Except ScriptError Unit :=
  validateScript commitReference s

/-- `get_commit_delay_time` (scripts.py lines 159-163). -/
def get_commit_delay_time (s : List Nat) : Except ScriptError Int := do
  validate_commit_structure s
  let w ← get_word s 1
  _parse_sequence_value w.opcode w.data

/-- `validate_commit_script` with `validate_delay_time=True`
(scripts.py lines 97-113). -/
def validate_commit_script (s : List Nat) : Except ScriptError Unit := do
  validate_commit_structure s
  let _ ← get_commit_delay_time s
  pure ()

/-- Extract the data of a decoded word, as `b2h(data)` does in the
accessors (`b2h(None)` raises `TypeError`). -/
def wordData (w : Word) : Except ScriptError (List Nat) :=
  match w.data with
  | some d => .ok d
  | none => .error .typeError

/-- `get_deposit_payer_pubkey` (scripts.py lines 180-184). -/
def get_deposit_payer_pubkey (s : List Nat) : Except ScriptError (List Nat) := do
  validate_deposit_script s
  let w ← get_word s 2
  wordData w

/-- `get_deposit_payee_pubkey` (scripts.py lines 187-191). -/
def get_deposit_payee_pubkey (s : List Nat) : Except ScriptError (List Nat) := do
  validate_deposit_script s
  let w ← get_word s 3
  wordData w

/-- `get_deposit_spend_secret_hash` (scripts.py lines 201-205). -/
def get_deposit_spend_secret_hash (s : List Nat) : Except ScriptError (List Nat) := do
  validate_deposit_script s
  let w ← get_word s 9
  wordData w

/-- `get_commit_payer_pubkey` (scripts.py lines 145-149). -/
def get_commit_payer_pubkey (s : List Nat) : Except ScriptError (List Nat) := do
  validate_commit_script s
  let w ← get_word s 13
  wordData w

/-- `get_commit_payee_pubkey` (scripts.py lines 152-156). -/
def get_commit_payee_pubkey (s : List Nat) : Except ScriptError (List Nat) := do
  validate_commit_script s
  let w ← get_word s 7
  wordData w

/-- `get_commit_spend_secret_hash` (scripts.py lines 166-170). -/
def get_commit_spend_secret_hash (s : List Nat) : Except ScriptError (List Nat) := do
  validate_commit_script s
  let w ← get_word s 5
  wordData w

/-- `get_commit_revoke_secret_hash` (scripts.py lines 173-177). -/
def get_commit_revoke_secret_hash (s : List Nat) : Except ScriptError (List Nat) := do
  validate_commit_script s
  let w ← get_word s 11
  wordData w

@[simp] theorem bindOk {α β : Type} (a : α) (f : α → Except ScriptError β) :
    (Except.ok a >>= f) = f a := rfl

@[simp] theorem bindErr {α β : Type} (e : ScriptError) (f : α → Except ScriptError β) :
    ((Except.error e : Except ScriptError α) >>= f) = .error e := rfl

theorem tokMatch_same {tk : Token} (h : wfToken tk) : tokMatch tk tk := ⟨h, h, Or.inr rfl⟩

theorem tokMatch_db {tk : Token} (h : wfToken tk) : tokMatch dbTok tk :=
  ⟨by decide, h, Or.inl (by decide)⟩

theorem depositTokens_match {payer payee ssh expire : Token} (hp : wfToken payer)
    (hq : wfToken payee) (hs : wfToken ssh) (ht : wfToken expire) :
    List.Forall₂ tokMatch (depositTokens dbTok dbTok dbTok dbTok)
      (depositTokens payer payee ssh expire) :=
  .cons (tokMatch_same (by decide))
    (.cons (tokMatch_same (by decide))
    (.cons (tokMatch_db hp)
    (.cons (tokMatch_db hq)
    (.cons (tokMatch_same (by decide))
    (.cons (tokMatch_same (by decide))
    (.cons (tokMatch_same (by decide))
    (.cons (tokMatch_same (by decide))
    (.cons (tokMatch_same (by decide))
    (.cons (tokMatch_db hs)
    (.cons (tokMatch_same (by decide))
    (.cons (tokMatch_db hp)
    (.cons (tokMatch_same (by decide))
    (.cons (tokMatch_same (by decide))
    (.cons (tokMatch_db ht)
    (.cons (tokMatch_same (by decide))
    (.cons (tokMatch_same (by decide))
    (.cons (tokMatch_db hp)
    (.cons (tokMatch_same (by decide))
    (.cons (tokMatch_same (by decide))
    (.cons (tokMatch_same (by decide)) .nil))))))))))))))))))))

theorem commitTokens_match {payer payee ssh rsh delay : Token} (hp : wfToken payer)
    (hq : wfToken payee) (hs : wfToken ssh) (hr : wfToken rsh) (hd : wfToken delay) :
    List.Forall₂ tokMatch (commitTokens dbTok dbTok dbTok dbTok dbTok)
      (commitTokens payer payee ssh rsh delay) :=
  .cons (tokMatch_same (by decide))
    (.cons (tokMatch_db hd)
    (.cons (tokMatch_same (by decide))
    (.cons (tokMatch_same (by decide))
    (.cons (tokMatch_same (by decide))
    (.cons (tokMatch_db hs)
    (.cons (tokMatch_same (by decide))
    (.cons (tokMatch_db hq)
    (.cons (tokMatch_same (by decide))
    (.cons (tokMatch_same (by decide))
    (.cons (tokMatch_same (by decide))
    (.cons (tokMatch_db hr)
    (.cons (tokMatch_same (by decide))
    (.cons (tokMatch_db hp)
    (.cons (tokMatch_same (by decide))
    (.cons (tokMatch_same (by decide)) .nil)))))))))))))))

theorem depositTokens_wf {payer payee ssh expire : Token} (hp : wfToken payer)
    (hq : wfToken payee) (hs : wfToken ssh) (ht : wfToken expire) :
    ∀ tk ∈ depositTokens payer payee ssh expire, wfToken tk := by
  intro tk htk
  simp only [depositTokens, List.mem_cons, List.not_mem_nil, or_false] at htk
  rcases htk with rfl | rfl | rfl | rfl | rfl | rfl | rfl | rfl | rfl | rfl | rfl | rfl |
    rfl | rfl | rfl | rfl | rfl | rfl | rfl | rfl | rfl <;>
    first | assumption | decide

theorem commitTokens_wf {payer payee ssh rsh delay : Token} (hp : wfToken payer)
    (hq : wfToken payee) (hs : wfToken ssh) (hr : wfToken rsh) (hd : wfToken delay) :
    ∀ tk ∈ commitTokens payer payee ssh rsh delay, wfToken tk := by
  intro tk htk
  simp only [commitTokens, List.mem_cons, List.not_mem_nil, or_false] at htk
  rcases htk with rfl | rfl | rfl | rfl | rfl | rfl | rfl | rfl | rfl | rfl | rfl | rfl |
    rfl | rfl | rfl | rfl <;>
    first | assumption | decide

theorem validate_deposit_structure_compiled {payer payee ssh expire : Token}
    (hp : wfToken payer) (hq : wfToken payee) (hs : wfToken ssh) (ht : wfToken expire) :
    validate_deposit_structure (compile_deposit_script payer payee ssh expire) = .ok () :=
  validateLoop_ok _ (depositTokens_match hp hq hs ht)

theorem validate_commit_structure_compiled {payer payee ssh rsh delay : Token}
    (hp : wfToken payer) (hq : wfToken payee) (hs : wfToken ssh) (hr : wfToken rsh)
    (hd : wfToken delay) :
    validate_commit_structure (compile_commit_script payer payee ssh rsh delay) = .ok () :=
  validateLoop_ok _ (commitTokens_match hp hq hs hr hd)

instance {ε α : Type} [DecidableEq ε] [DecidableEq α] : DecidableEq (Except ε α)
  | .ok a, .ok b => if h : a = b then .isTrue (by rw [h]) else .isFalse (by simp [h])
  | .ok _, .error _ => .isFalse (by simp)
  | .error _, .ok _ => .isFalse (by simp)
  | .error e, .error f => if h : e = f then .isTrue (by rw [h]) else .isFalse (by simp [h])

theorem wordData_tokenWord_data (d : List Nat) : wordData (tokenWord (.data d)) = .ok d := by
  by_cases h75 : d.length ≤ 75
  · simp [tokenWord, wordData, h75]
  · by_cases h255 : d.length ≤ 255 <;> simp [tokenWord, wordData, h75, h255]

theorem parse_seq_num {t : Nat} (ht : t ≤ 65535) :
    _parse_sequence_value (tokenWord (.num t)).opcode (tokenWord (.num t)).data =
      .ok (t : Int) := by
  by_cases h0 : t = 0
  · subst h0
    decide
  · by_cases h16 : t ≤ 16
    · simp only [tokenWord, if_neg h0, if_pos h16]
      unfold _parse_sequence_value
      rw [if_neg (by omega : ¬ (80 + t = 0)),
        if_neg (by omega : ¬ (0 < 80 + t ∧ 80 + t < 76)),
        if_pos (by omega : 80 < 80 + t ∧ 80 + t < 97)]
      have hcast : ((80 + t : Nat) : Int) - 80 = (t : Int) := by push_cast; ring
      rw [hcast]
      show (if (0 : Int) ≤ (t : Int) ∧ (t : Int) ≤ 65535 then Except.ok (t : Int)
        else Except.error ScriptError.invalidSequenceValue) = Except.ok (t : Int)
      rw [if_pos ⟨Int.ofNat_nonneg t, by exact_mod_cast ht⟩]
    · have hne := intToScriptBytes_ne_nil (show 0 < t by omega)
      have hlen3 := intToScriptBytes_length ht
      have hlenpos : 0 < (intToScriptBytes t).length := List.length_pos.2 hne
      simp only [tokenWord, if_neg h0, if_neg h16]
      unfold _parse_sequence_value
      rw [if_neg (by omega : ¬ ((intToScriptBytes t).length = 0)),
        if_pos (by omega : 0 < (intToScriptBytes t).length ∧ (intToScriptBytes t).length < 76)]
      simp only [Option.map_some']
      rw [scriptBytesToInt_intToScriptBytes (show 0 < t by omega)]
      show (if (0 : Int) ≤ (t : Int) ∧ (t : Int) ≤ 65535 then Except.ok (t : Int)
        else Except.error ScriptError.invalidSequenceValue) = Except.ok (t : Int)
      rw [if_pos ⟨Int.ofNat_nonneg t, by exact_mod_cast ht⟩]

theorem get_deposit_expire_time_compiled {payer payee ssh : Token} {t : Nat}
    (hp : wfToken payer) (hq : wfToken payee) (hs : wfToken ssh) (ht : t ≤ 65535) :
    get_deposit_expire_time (compile_deposit_script payer payee ssh (.num t)) =
      .ok (t : Int) := by
  have hws := wordsOf_compile
    (depositTokens_wf hp hq hs (show wfToken (.num t) from ht))
  unfold get_deposit_expire_time
  rw [validate_deposit_structure_compiled hp hq hs (show wfToken (.num t) from ht)]
  simp only [bindOk, compile_deposit_script, compile_commit_script]
  rw [get_word_wordsOf hws 14]
  exact parse_seq_num ht

theorem validate_deposit_script_compiled {payer payee ssh : Token} {t : Nat}
    (hp : wfToken payer) (hq : wfToken payee) (hs : wfToken ssh) (ht : t ≤ 65535) :
    validate_deposit_script (compile_deposit_script payer payee ssh (.num t)) = .ok () := by
  unfold validate_deposit_script
  rw [validate_deposit_structure_compiled hp hq hs (show wfToken (.num t) from ht)]
  simp only [bindOk]
  rw [get_deposit_expire_time_compiled hp hq hs ht]
  rfl

theorem get_commit_delay_time_compiled {payer payee ssh rsh : Token} {t : Nat}
    (hp : wfToken payer) (hq : wfToken payee) (hs : wfToken ssh) (hr : wfToken rsh)
    (ht : t ≤ 65535) :
    get_commit_delay_time (compile_commit_script payer payee ssh rsh (.num t)) =
      .ok (t : Int) := by
  have hws := wordsOf_compile
    (commitTokens_wf hp hq hs hr (show wfToken (.num t) from ht))
  unfold get_commit_delay_time
  rw [validate_commit_structure_compiled hp hq hs hr (show wfToken (.num t) from ht)]
  simp only [bindOk, compile_deposit_script, compile_commit_script]
  rw [get_word_wordsOf hws 1]
  exact parse_seq_num ht

theorem validate_commit_script_compiled {payer payee ssh rsh : Token} {t : Nat}
    (hp : wfToken payer) (hq : wfToken payee) (hs : wfToken ssh) (hr : wfToken rsh)
    (ht : t ≤ 65535) :
    validate_commit_script (compile_commit_script payer payee ssh rsh (.num t)) = .ok () := by
  unfold validate_commit_script
  rw [validate_commit_structure_compiled hp hq hs hr (show wfToken (.num t) from ht)]
  simp only [bindOk]
  rw [get_commit_delay_time_compiled hp hq hs hr ht]
  rfl

theorem get_deposit_payer_pubkey_compiled {p : List Nat} {payee ssh : Token} {t : Nat}
    (hp : p.length ≤ 65535) (hq : wfToken payee) (hs : wfToken ssh) (ht : t ≤ 65535) :
    get_deposit_payer_pubkey (compile_deposit_script (.data p) payee ssh (.num t)) =
      .ok p := by
  have hws := wordsOf_compile
    (depositTokens_wf (show wfToken (.data p) from hp) hq hs (show wfToken (.num t) from ht))
  unfold get_deposit_payer_pubkey
  rw [validate_deposit_script_compiled (show wfToken (.data p) from hp) hq hs ht]
  simp only [bindOk, compile_deposit_script, compile_commit_script]
  rw [get_word_wordsOf hws 2]
  exact wordData_tokenWord_data p

theorem get_deposit_payee_pubkey_compiled {q : List Nat} {payer ssh : Token} {t : Nat}
    (hp : wfToken payer) (hq : q.length ≤ 65535) (hs : wfToken ssh) (ht : t ≤ 65535) :
    get_deposit_payee_pubkey (compile_deposit_script payer (.data q) ssh (.num t)) =
      .ok q := by
  have hws := wordsOf_compile
    (depositTokens_wf hp (show wfToken (.data q) from hq) hs (show wfToken (.num t) from ht))
  unfold get_deposit_payee_pubkey
  rw [validate_deposit_script_compiled hp (show wfToken (.data q) from hq) hs ht]
  simp only [bindOk, compile_deposit_script, compile_commit_script]
  rw [get_word_wordsOf hws 3]
  exact wordData_tokenWord_data q

theorem get_deposit_spend_secret_hash_compiled {s : List Nat} {payer payee : Token} {t : Nat}
    (hp : wfToken payer) (hq : wfToken payee) (hs : s.length ≤ 65535) (ht : t ≤ 65535) :
    get_deposit_spend_secret_hash (compile_deposit_script payer payee (.data s) (.num t)) =
      .ok s := by
  have hws := wordsOf_compile
    (depositTokens_wf hp hq (show wfToken (.data s) from hs) (show wfToken (.num t) from ht))
  unfold get_deposit_spend_secret_hash
  rw [validate_deposit_script_compiled hp hq (show wfToken (.data s) from hs) ht]
  simp only [bindOk, compile_deposit_script, compile_commit_script]
  rw [get_word_wordsOf hws 9]
  exact wordData_tokenWord_data s

theorem get_commit_payer_pubkey_compiled {p : List Nat} {payee ssh rsh : Token} {t : Nat}
    (hp : p.length ≤ 65535) (hq : wfToken payee) (hs : wfToken ssh) (hr : wfToken rsh)
    (ht : t ≤ 65535) :
    get_commit_payer_pubkey (compile_commit_script (.data p) payee ssh rsh (.num t)) =
      .ok p := by
  have hws := wordsOf_compile
    (commitTokens_wf (show wfToken (.data p) from hp) hq hs hr (show wfToken (.num t) from ht))
  unfold get_commit_payer_pubkey
  rw [validate_commit_script_compiled (show wfToken (.data p) from hp) hq hs hr ht]
  simp only [bindOk, compile_deposit_script, compile_commit_script]
  rw [get_word_wordsOf hws 13]
  exact wordData_tokenWord_data p

theorem get_commit_payee_pubkey_compiled {q : List Nat} {payer ssh rsh : Token} {t : Nat}
    (hp : wfToken payer) (hq : q.length ≤ 65535) (hs : wfToken ssh) (hr : wfToken rsh)
    (ht : t ≤ 65535) :
    get_commit_payee_pubkey (compile_commit_script payer (.data q) ssh rsh (.num t)) =
      .ok q := by
  have hws := wordsOf_compile
    (commitTokens_wf hp (show wfToken (.data q) from hq) hs hr (show wfToken (.num t) from ht))
  unfold get_commit_payee_pubkey
  rw [validate_commit_script_compiled hp (show wfToken (.data q) from hq) hs hr ht]
  simp only [bindOk, compile_deposit_script, compile_commit_script]
  rw [get_word_wordsOf hws 7]
  exact wordData_tokenWord_data q

theorem get_commit_spend_secret_hash_compiled {s : List Nat} {payer payee rsh : Token}
    {t : Nat} (hp : wfToken payer) (hq : wfToken payee) (hs : s.length ≤ 65535)
    (hr : wfToken rsh) (ht : t ≤ 65535) :
    get_commit_spend_secret_hash (compile_commit_script payer payee (.data s) rsh (.num t)) =
      .ok s := by
  have hws := wordsOf_compile
    (commitTokens_wf hp hq (show wfToken (.data s) from hs) hr (show wfToken (.num t) from ht))
  unfold get_commit_spend_secret_hash
  rw [validate_commit_script_compiled hp hq (show wfToken (.data s) from hs) hr ht]
  simp only [bindOk, compile_deposit_script, compile_commit_script]
  rw [get_word_wordsOf hws 5]
  exact wordData_tokenWord_data s

theorem get_commit_revoke_secret_hash_compiled {r : List Nat} {payer payee ssh : Token}
    {t : Nat} (hp : wfToken payer) (hq : wfToken payee) (hs : wfToken ssh)
    (hr : r.length ≤ 65535) (ht : t ≤ 65535) :
    get_commit_revoke_secret_hash (compile_commit_script payer payee ssh (.data r) (.num t)) =
      .ok r := by
  have hws := wordsOf_compile
    (commitTokens_wf hp hq hs (show wfToken (.data r) from hr) (show wfToken (.num t) from ht))
  unfold get_commit_revoke_secret_hash
  rw [validate_commit_script_compiled hp hq hs (show wfToken (.data r) from hr) ht]
  simp only [bindOk, compile_deposit_script, compile_commit_script]
  rw [get_word_wordsOf hws 11]
  exact wordData_tokenWord_data r

theorem wfData {d : List Nat} (h : d.length ≤ 65535) : wfToken (.data d) := h

theorem wfNum {n : Nat} (h : n ≤ 65535) : wfToken (.num n) := h

/-- Example compressed SEC pubkey (payer). -/
def pkA : List Nat := 2 :: List.replicate 32 17

/-- Example compressed SEC pubkey (payee). -/
def pkB : List Nat := 3 :: List.replicate 32 34

/-- Example hash160 value (spend secret hash). -/
def hsC : List Nat := List.replicate 20 5

/-- Example hash160 value (revoke secret hash). -/
def hsD : List Nat := List.replicate 20 6

/-- Example 32-byte secret. -/
def secretS : List Nat := List.replicate 32 7

/-- C1: for every well-formed payer pubkey, payee pubkey, spend-secret
hash, revoke-secret hash, and sequence values in `[0, 0xFFFF]`,
compiling a deposit (resp. commit) script and then applying each field
accessor returns exactly the original inputs (byte lists stand for the
hex strings of the Python interface). -/
theorem claim1_template_round_trip {payer payee ssh rsh : List Nat} {t1 t2 : Nat}
    (hp : payer.length = 33 ∨ payer.length = 65)
    (hq : payee.length = 33 ∨ payee.length = 65)
    (hs : ssh.length = 20) (hr : rsh.length = 20)
    (ht1 : t1 ≤ 65535) (ht2 : t2 ≤ 65535) :
    get_deposit_payer_pubkey
        (compile_deposit_script (.data payer) (.data payee) (.data ssh) (.num t1)) =
      .ok payer ∧
    get_deposit_payee_pubkey
        (compile_deposit_script (.data payer) (.data payee) (.data ssh) (.num t1)) =
      .ok payee ∧
    get_deposit_spend_secret_hash
        (compile_deposit_script (.data payer) (.data payee) (.data ssh) (.num t1)) =
      .ok ssh ∧
    get_deposit_expire_time
        (compile_deposit_script (.data payer) (.data payee) (.data ssh) (.num t1)) =
      .ok (t1 : Int) ∧
    get_commit_payer_pubkey
        (compile_commit_script (.data payer) (.data payee) (.data ssh) (.data rsh)
          (.num t2)) = .ok payer ∧
    get_commit_payee_pubkey
        (compile_commit_script (.data payer) (.data payee) (.data ssh) (.data rsh)
          (.num t2)) = .ok payee ∧
    get_commit_spend_secret_hash
        (compile_commit_script (.data payer) (.data payee) (.data ssh) (.data rsh)
          (.num t2)) = .ok ssh ∧
    get_commit_revoke_secret_hash
        (compile_commit_script (.data payer) (.data payee) (.data ssh) (.data rsh)
          (.num t2)) = .ok rsh ∧
    get_commit_delay_time
        (compile_commit_script (.data payer) (.data payee) (.data ssh) (.data rsh)
          (.num t2)) = .ok (t2 : Int) := by
  have hp' : payer.length ≤ 65535 := by omega
  have hq' : payee.length ≤ 65535 := by omega
  have hs' : ssh.length ≤ 65535 := by omega
  have hr' : rsh.length ≤ 65535 := by omega
  refine ⟨?_, ?_, ?_, ?_, ?_, ?_, ?_, ?_, ?_⟩
  · exact get_deposit_payer_pubkey_compiled hp' (wfData hq') (wfData hs') ht1
  · exact get_deposit_payee_pubkey_compiled (wfData hp') hq' (wfData hs') ht1
  · exact get_deposit_spend_secret_hash_compiled (wfData hp') (wfData hq') hs' ht1
  · exact get_deposit_expire_time_compiled (wfData hp') (wfData hq') (wfData hs') ht1
  · exact get_commit_payer_pubkey_compiled hp' (wfData hq') (wfData hs') (wfData hr') ht2
  · exact get_commit_payee_pubkey_compiled (wfData hp') hq' (wfData hs') (wfData hr') ht2
  · exact get_commit_spend_secret_hash_compiled (wfData hp') (wfData hq') hs' (wfData hr') ht2
  · exact get_commit_revoke_secret_hash_compiled (wfData hp') (wfData hq') (wfData hs') hr' ht2
  · exact get_commit_delay_time_compiled (wfData hp') (wfData hq') (wfData hs') (wfData hr') ht2

theorem claim1_template_round_trip_witness :
    get_deposit_payer_pubkey
        (compile_deposit_script (.data pkA) (.data pkB) (.data hsC) (.num 1000)) =
      .ok pkA ∧
    get_deposit_payee_pubkey
        (compile_deposit_script (.data pkA) (.data pkB) (.data hsC) (.num 1000)) =
      .ok pkB ∧
    get_deposit_spend_secret_hash
        (compile_deposit_script (.data pkA) (.data pkB) (.data hsC) (.num 1000)) =
      .ok hsC ∧
    get_deposit_expire_time
        (compile_deposit_script (.data pkA) (.data pkB) (.data hsC) (.num 1000)) =
      .ok 1000 ∧
    get_commit_payer_pubkey
        (compile_commit_script (.data pkA) (.data pkB) (.data hsC) (.data hsD)
          (.num 513)) = .ok pkA ∧
    get_commit_payee_pubkey
        (compile_commit_script (.data pkA) (.data pkB) (.data hsC) (.data hsD)
          (.num 513)) = .ok pkB ∧
    get_commit_spend_secret_hash
        (compile_commit_script (.data pkA) (.data pkB) (.data hsC) (.data hsD)
          (.num 513)) = .ok hsC ∧
    get_commit_revoke_secret_hash
        (compile_commit_script (.data pkA) (.data pkB) (.data hsC) (.data hsD)
          (.num 513)) = .ok hsD ∧
    get_commit_delay_time
        (compile_commit_script (.data pkA) (.data pkB) (.data hsC) (.data hsD)
          (.num 513)) = .ok 513 :=
  claim1_template_round_trip (by decide) (by decide) (by decide) (by decide)
    (by decide) (by decide)

/-- The decoded value of a script word exactly as the sequence-value
parser computes it (`OP_0` is 0, direct pushes are signed little-endian
script integers, `OP_1`..`OP_16` are opcode minus 80, everything else
has no value). -/
def decodedSeqValue (opcode : Nat) (data : Option (List Nat)) : Option Int :=
  if opcode = 0 then some 0
  else if 0 < opcode ∧ opcode < 76 then data.map scriptBytesToInt
  else if 80 < opcode ∧ opcode < 97 then some ((opcode : Int) - 80)
  else none

theorem parse_seq_spec (opcode : Nat) (data : Option (List Nat)) :
    _parse_sequence_value opcode data =
      (match decodedSeqValue opcode data with
      | none => .error .typeError
      | some v =>
        if 0 ≤ v ∧ v ≤ 65535 then .ok v else .error .invalidSequenceValue) := rfl

/-- The claim's reading of a data push: the plain (unsigned)
little-endian integer of its bytes, with no sign bit. -/
def specSeqValueUnsigned (opcode : Nat) (data : Option (List Nat)) : Option Nat :=
  if opcode = 0 then some 0
  else if 0 < opcode ∧ opcode < 76 then data.map leToNat
  else if 80 < opcode ∧ opcode < 97 then some (opcode - 80)
  else none

/-- C3 counterexample: the word `(2, [0xFF, 0xFF])` decodes to 65535
under the claim's unsigned little-endian reading, which is inside
`[0, 0xFFFF]`, yet the parser rejects it with `InvalidSequenceValue`
because `int_from_script_bytes` treats the high bit of the final byte as
a sign bit (the word decodes to -32767). -/
theorem claim3_counterexample :
    specSeqValueUnsigned 2 (some [255, 255]) = some 65535 ∧
    _parse_sequence_value 2 (some [255, 255]) = .error .invalidSequenceValue ∧
    scriptBytesToInt [255, 255] = -32767 := by decide

/-- C3 (amended): with the decoded value read as the signed
little-endian script integer, the parser accepts exactly the decoded
values in `[0, 0xFFFF]` and rejects every other decoded value (above
`0xFFFF` or negative) with `InvalidSequenceValue`. -/
theorem claim3_sequence_range {opcode : Nat} {data : Option (List Nat)} {v : Int}
    (h : decodedSeqValue opcode data = some v) :
    (_parse_sequence_value opcode data = .ok v ↔ 0 ≤ v ∧ v ≤ 65535) ∧
    (65536 ≤ v ∨ v < 0 → _parse_sequence_value opcode data = .error .invalidSequenceValue) := by
  rw [parse_seq_spec, h]
  have hred : (match some v with
      | none => Except.error ScriptError.typeError
      | some w => if 0 ≤ w ∧ w ≤ 65535 then Except.ok w
        else Except.error ScriptError.invalidSequenceValue) =
      (if 0 ≤ v ∧ v ≤ 65535 then Except.ok v
        else (Except.error ScriptError.invalidSequenceValue : Except ScriptError Int)) := rfl
  rw [hred]
  by_cases hrange : 0 ≤ v ∧ v ≤ 65535
  · rw [if_pos hrange]
    exact ⟨⟨fun _ => hrange, fun _ => rfl⟩, fun hout => by omega⟩
  · rw [if_neg hrange]
    refine ⟨⟨fun hcontra => absurd hcontra (by simp), fun hr => absurd hr hrange⟩, fun _ => rfl⟩

theorem claim3_sequence_range_witness :
    (_parse_sequence_value 3 (some [0, 0, 1]) = .ok 65536 ↔
      (0 : Int) ≤ 65536 ∧ (65536 : Int) ≤ 65535) ∧
    ((65536 : Int) ≤ 65536 ∨ (65536 : Int) < 0 →
      _parse_sequence_value 3 (some [0, 0, 1]) = .error .invalidSequenceValue) :=
  claim3_sequence_range (by decide)

/-- C9: `get_word` returns the k-th decoded word of a script, and fails
with the out-of-range error when the script contains `k` or fewer words
(stated for scripts whose words all decode; the word list is what the
sequential decode produces, a trailing overrun push counting as a word). -/
theorem claim9_get_word {s : List Nat} {ws : List Word} (h : wordsOf s = some ws)
    (index : Nat) :
    get_word s index = (match ws.get? index with
      | some w => .ok w
      | none => .error .outOfRange) :=
  get_word_wordsOf h index

theorem claim9_get_word_witness :
    get_word [81, 2, 170, 187] 1 = .ok ⟨2, some [170, 187]⟩ ∧
    get_word [81, 2, 170, 187] 2 = .error .outOfRange := by
  have h1 := @claim9_get_word [81, 2, 170, 187] [⟨81, none⟩, ⟨2, some [170, 187]⟩]
    (by decide) 1
  have h2 := @claim9_get_word [81, 2, 170, 187] [⟨81, none⟩, ⟨2, some [170, 187]⟩]
    (by decide) 2
  exact ⟨by simpa using h1, by simpa using h2⟩

theorem validateLoop_nil_cons (u0 : List Nat) (c : Nat) (C : List Nat) :
    validateLoop u0 [] (c :: C) = .error (.invalidScript u0) := rfl

theorem validateLoop_cons_nil (u0 : List Nat) (r : Nat) (R : List Nat) :
    validateLoop u0 (r :: R) [] = .error (.invalidScript u0) := rfl

theorem validateLoop_step_mismatch (u0 : List Nat) {r c : Token} (R C : List Nat)
    (hr : wfToken r) (hc : wfToken c)
    (hnw : ¬ (tokenWord r).data = some deadbeefBytes)
    (hne : tokenWord r ≠ tokenWord c) :
    validateLoop u0 (encodeToken r ++ R) (encodeToken c ++ C) =
      .error (.invalidScript u0) := by
  obtain ⟨r0, rt0, hrr⟩ := List.exists_cons_of_ne_nil (encodeToken_ne_nil r)
  obtain ⟨c0, ct0, hcc⟩ := List.exists_cons_of_ne_nil (encodeToken_ne_nil c)
  have hdr : decodeWord (encodeToken r ++ R) = .ok (tokenWord r, R, false) :=
    decode_encodeToken hr R
  have hdc : decodeWord (encodeToken c ++ C) = .ok (tokenWord c, C, false) :=
    decode_encodeToken hc C
  rw [hrr] at hdr
  rw [hcc] at hdc
  unfold validateLoop
  rw [hrr, hcc]
  simp only [List.cons_append, List.length_cons] at hdr hdc ⊢
  rw [validateLoopF_cons, hdr, hdc]
  simp only [Bool.or_self]
  rw [if_neg (by simp), if_neg hnw]
  rw [if_neg (fun hand => hne (by
    obtain ⟨h1, h2⟩ := hand
    cases hw1 : tokenWord r
    cases hw2 : tokenWord c
    rw [hw1, hw2] at h1 h2
    simp only [] at h1 h2
    rw [h1, h2]))]

/-- C4 counterexample: a reference consisting of one `deadbeef` wildcard
push accepts the candidate `[97]` (`OP_NOP`), a word that is not a data
push (it decodes with no data), so a wildcard slot is not restricted to
data pushes. -/
theorem claim4_counterexample :
    validateScript (scriptCompile [dbTok]) [97] = .ok () ∧
    decodeWord [97] = .ok (⟨97, none⟩, [], false) := by decide

/-- C4 (amended): in `_validate`, a reference word carrying the
`deadbeef` sentinel accepts ANY single candidate word (data push or
not); at every other position opcode and data must be equal; both
scripts must end at the same word position; each such violation raises
`InvalidScript` carrying the candidate.  (Stated over token sequences:
`tokMatch` holds pairwise exactly when each reference word is either the
wildcard or equal to the candidate word.) -/
theorem claim4_wildcard_validation :
    (∀ (rts cts : List Token), List.Forall₂ tokMatch rts cts →
      validateScript (scriptCompile rts) (scriptCompile cts) = .ok ()) ∧
    (∀ (rts cts : List Token) (c0 : Token) (cext : List Token),
      List.Forall₂ tokMatch rts cts →
      validateScript (scriptCompile rts) (scriptCompile (cts ++ c0 :: cext)) =
        .error (.invalidScript (scriptCompile (cts ++ c0 :: cext)))) ∧
    (∀ (rts cts : List Token) (r0 : Token) (rext : List Token),
      List.Forall₂ tokMatch rts cts →
      validateScript (scriptCompile (rts ++ r0 :: rext)) (scriptCompile cts) =
        .error (.invalidScript (scriptCompile cts))) ∧
    (∀ (rts cts : List Token) (r0 c0 : Token) (rext cext : List Token),
      List.Forall₂ tokMatch rts cts → wfToken r0 → wfToken c0 →
      ¬ (tokenWord r0).data = some deadbeefBytes → tokenWord r0 ≠ tokenWord c0 →
      validateScript (scriptCompile (rts ++ r0 :: rext))
          (scriptCompile (cts ++ c0 :: cext)) =
        .error (.invalidScript (scriptCompile (cts ++ c0 :: cext)))) := by
  refine ⟨?_, ?_, ?_, ?_⟩
  · intro rts cts h
    exact validateLoop_ok _ h
  · intro rts cts c0 cext h
    unfold validateScript
    have hwalk := validateLoop_walk (scriptCompile (cts ++ c0 :: cext)) h []
      (scriptCompile (c0 :: cext))
    simp only [List.append_nil] at hwalk
    rw [← scriptCompile_append] at hwalk
    rw [hwalk]
    obtain ⟨b, bt, hb⟩ := List.exists_cons_of_ne_nil (encodeToken_ne_nil c0)
    rw [scriptCompile_cons, hb, List.cons_append]
    exact validateLoop_nil_cons _ _ _
  · intro rts cts r0 rext h
    unfold validateScript
    have hwalk := validateLoop_walk (scriptCompile cts) h (scriptCompile (r0 :: rext)) []
    simp only [List.append_nil] at hwalk
    rw [← scriptCompile_append] at hwalk
    rw [hwalk]
    obtain ⟨b, bt, hb⟩ := List.exists_cons_of_ne_nil (encodeToken_ne_nil r0)
    rw [scriptCompile_cons, hb, List.cons_append]
    exact validateLoop_cons_nil _ _ _
  · intro rts cts r0 c0 rext cext h hr0 hc0 hnw hne
    unfold validateScript
    have hwalk := validateLoop_walk (scriptCompile (cts ++ c0 :: cext)) h
      (scriptCompile (r0 :: rext)) (scriptCompile (c0 :: cext))
    rw [← scriptCompile_append, ← scriptCompile_append] at hwalk
    rw [hwalk]
    rw [scriptCompile_cons, scriptCompile_cons]
    exact validateLoop_step_mismatch _ _ _ hr0 hc0 hnw hne

theorem claim4_wildcard_validation_witness :
    validateScript (scriptCompile [dbTok, .op 81]) (scriptCompile [.op 118, .op 81]) =
      .ok () ∧
    validateScript (scriptCompile [dbTok]) (scriptCompile [.op 118, .op 81]) =
      .error (.invalidScript (scriptCompile [.op 118, .op 81])) ∧
    validateScript (scriptCompile [dbTok, .op 81]) (scriptCompile [.op 118]) =
      .error (.invalidScript (scriptCompile [.op 118])) ∧
    validateScript (scriptCompile [dbTok, .op 81]) (scriptCompile [.op 118, .op 82]) =
      .error (.invalidScript (scriptCompile [.op 118, .op 82])) := by
  refine ⟨?_, ?_, ?_, ?_⟩
  · exact claim4_wildcard_validation.1 [dbTok, .op 81] [.op 118, .op 81]
      (.cons (tokMatch_db (by decide)) (.cons (tokMatch_same (by decide)) .nil))
  · exact claim4_wildcard_validation.2.1 [dbTok] [.op 118] (.op 81) []
      (.cons (tokMatch_db (by decide)) .nil)
  · exact claim4_wildcard_validation.2.2.1 [dbTok] [.op 118] (.op 81) []
      (.cons (tokMatch_db (by decide)) .nil)
  · exact claim4_wildcard_validation.2.2.2 [dbTok] [.op 118] (.op 81) (.op 82) [] []
      (.cons (tokMatch_db (by decide)) .nil) (by decide) (by decide) (by decide) (by decide)

theorem decodeWord_error_eq {l : List Nat} {e : ScriptError}
    (h : decodeWord l = .error e) : e = .malformedScript := by
  match l with
  | [] =>
    simp only [decodeWord, Except.error.injEq] at h
    exact h.symm
  | op :: t =>
    simp only [decodeWord] at h
    split at h
    · exact absurd h (by simp)
    · split at h
      · split at h
        · simp only [Except.error.injEq] at h
          exact h.symm
        · exact absurd h (by simp)
      · split at h
        · split at h
          · exact absurd h (by simp)
          · simp only [Except.error.injEq] at h
            exact h.symm
        · split at h
          · split at h
            · exact absurd h (by simp)
            · simp only [Except.error.injEq] at h
              exact h.symm
          · exact absurd h (by simp)

theorem validateLoop_opcode_mismatch (u0 : List Nat) {c : Nat} (hc : 79 ≤ c)
    (R : List Nat) {b : Nat} (hb : b ≠ c) (C : List Nat) :
    validateLoop u0 (c :: R) (b :: C) = .error (.invalidScript u0) ∨
    validateLoop u0 (c :: R) (b :: C) = .error .malformedScript := by
  have hdr : decodeWord (c :: R) = .ok (⟨c, none⟩, R, false) := by
    simp only [decodeWord]
    rw [if_neg (by omega : ¬ c ≤ 75), if_neg (by omega : ¬ c = 76),
      if_neg (by omega : ¬ c = 77), if_neg (by omega : ¬ c = 78)]
  unfold validateLoop
  simp only [List.length_cons]
  rw [validateLoopF_cons, hdr]
  match hdc : decodeWord (b :: C) with
  | .error e =>
    right
    simp only []
    rw [decodeWord_error_eq hdc]
  | .ok (cw, crest, cov) =>
    left
    have hop : cw.opcode = b := decodeWord_opcode hdc
    simp only []
    cases cov
    · rw [if_neg (by simp), if_neg (by simp)]
      rw [if_neg (fun hand => hb (by rw [← hop, ← hand.1]))]
    · rw [if_pos (by simp)]

theorem validate_mutation {rts cts : List Token} (hm : List.Forall₂ tokMatch rts cts)
    {k c : Nat} (hc : 79 ≤ c)
    (hdropr : rts.drop k = .op c :: rts.drop (k + 1))
    {b : Nat} (hb : b ≠ c) (u0 : List Nat) :
    validateLoop u0 (scriptCompile rts)
        (scriptCompile (cts.take k) ++ b :: scriptCompile (cts.drop (k + 1))) =
      .error (.invalidScript u0) ∨
    validateLoop u0 (scriptCompile rts)
        (scriptCompile (cts.take k) ++ b :: scriptCompile (cts.drop (k + 1))) =
      .error .malformedScript := by
  have hcomp : scriptCompile rts =
      scriptCompile (rts.take k) ++ (c :: scriptCompile (rts.drop (k + 1))) := by
    conv_lhs => rw [← List.take_append_drop k rts]
    rw [scriptCompile_append, hdropr, scriptCompile_cons]
    rfl
  rw [hcomp]
  rw [validateLoop_walk u0 (List.forall₂_take k hm)]
  exact validateLoop_opcode_mismatch u0 hc _ hb _

theorem depositTokens_fixed {k c : Nat}
    (h : (depositTokens dbTok dbTok dbTok dbTok).get? k = some (.op c)) :
    79 ≤ c ∧
    (depositTokens dbTok dbTok dbTok dbTok).drop k =
      .op c :: (depositTokens dbTok dbTok dbTok dbTok).drop (k + 1) := by
  have hk : k < 21 := by
    by_contra hk2
    rw [List.get?_eq_none.2 (by simp [depositTokens]; omega)] at h
    exact absurd h (by simp)
  interval_cases k <;>
    first
      | exact Token.noConfusion (Option.some.inj h)
      | (obtain rfl := Token.op.inj (Option.some.inj h); exact ⟨by omega, rfl⟩)

theorem commitTokens_fixed {k c : Nat}
    (h : (commitTokens dbTok dbTok dbTok dbTok dbTok).get? k = some (.op c)) :
    79 ≤ c ∧
    (commitTokens dbTok dbTok dbTok dbTok dbTok).drop k =
      .op c :: (commitTokens dbTok dbTok dbTok dbTok dbTok).drop (k + 1) := by
  have hk : k < 16 := by
    by_contra hk2
    rw [List.get?_eq_none.2 (by simp [commitTokens]; omega)] at h
    exact absurd h (by simp)
  interval_cases k <;>
    first
      | exact Token.noConfusion (Option.some.inj h)
      | (obtain rfl := Token.op.inj (Option.some.inj h); exact ⟨by omega, rfl⟩)

theorem validate_deposit_script_error {s : List Nat} {e : ScriptError}
    (h : validate_deposit_structure s = .error e) : validate_deposit_script s = .error e := by
  unfold validate_deposit_script
  rw [h]
  rfl

theorem validate_commit_script_error {s : List Nat} {e : ScriptError}
    (h : validate_commit_structure s = .error e) : validate_commit_script s = .error e := by
  unfold validate_commit_script
  rw [h]
  rfl

/-- The compiled deposit script with the single byte of word `k` (a
fixed one-byte opcode word when `k` is outside the wildcard slots)
replaced by the byte `b`: a single-byte mutation at a non-wildcard
position. -/
def depositMutant (payer payee ssh : List Nat) (t1 k b : Nat) : List Nat :=
  scriptCompile ((depositTokens (.data payer) (.data payee) (.data ssh) (.num t1)).take k)
    ++ b ::
    scriptCompile ((depositTokens (.data payer) (.data payee) (.data ssh) (.num t1)).drop
      (k + 1))

/-- The compiled commit script with the single byte of word `k` replaced
by the byte `b`. -/
def commitMutant (payer payee ssh rsh : List Nat) (t2 k b : Nat) : List Nat :=
  scriptCompile ((commitTokens (.data payer) (.data payee) (.data ssh) (.data rsh)
      (.num t2)).take k)
    ++ b ::
    scriptCompile ((commitTokens (.data payer) (.data payee) (.data ssh) (.data rsh)
      (.num t2)).drop (k + 1))

set_option maxRecDepth 100000 in
/-- C5 counterexample: mutating the final byte (the closing `OP_ENDIF`,
a non-wildcard position) of a compiled deposit script into `0x4c`
(`OP_PUSHDATA1`) leaves the candidate word undecodable (the length byte
is missing), so validation fails with the bytecode decode error rather
than `InvalidScript`. -/
theorem claim5_counterexample :
    (compile_deposit_script (.data pkA) (.data pkB) (.data hsC) (.num 5)).getLast? =
      some 104 ∧
    validate_deposit_script
        ((compile_deposit_script (.data pkA) (.data pkB) (.data hsC) (.num 5)).dropLast
          ++ [76]) = .error .malformedScript := by decide

/-- C5 (amended): every script this module compiles from well-formed
fields passes `validate_deposit_script` / `validate_commit_script`; and
changing the single byte of any fixed (non-wildcard) word of the
compiled script makes validation fail — with `InvalidScript`, except
for mutations that leave the bytecode undecodable, which fail with the
decode error (`MalformedScript`). -/
theorem claim5_validation_identity :
    (∀ (payer payee ssh rsh : List Nat) (t1 t2 : Nat),
      (payer.length = 33 ∨ payer.length = 65) →
      (payee.length = 33 ∨ payee.length = 65) →
      ssh.length = 20 → rsh.length = 20 → t1 ≤ 65535 → t2 ≤ 65535 →
      validate_deposit_script
          (compile_deposit_script (.data payer) (.data payee) (.data ssh) (.num t1)) =
        .ok () ∧
      validate_commit_script
          (compile_commit_script (.data payer) (.data payee) (.data ssh) (.data rsh)
            (.num t2)) = .ok ()) ∧
    (∀ (payer payee ssh : List Nat) (t1 k c b : Nat),
      (payer.length = 33 ∨ payer.length = 65) →
      (payee.length = 33 ∨ payee.length = 65) →
      ssh.length = 20 → t1 ≤ 65535 →
      (depositTokens dbTok dbTok dbTok dbTok).get? k = some (.op c) → b ≠ c →
      (validate_deposit_script (depositMutant payer payee ssh t1 k b) =
          .error (.invalidScript (depositMutant payer payee ssh t1 k b)) ∨
        validate_deposit_script (depositMutant payer payee ssh t1 k b) =
          .error .malformedScript)) ∧
    (∀ (payer payee ssh rsh : List Nat) (t2 k c b : Nat),
      (payer.length = 33 ∨ payer.length = 65) →
      (payee.length = 33 ∨ payee.length = 65) →
      ssh.length = 20 → rsh.length = 20 → t2 ≤ 65535 →
      (commitTokens dbTok dbTok dbTok dbTok dbTok).get? k = some (.op c) → b ≠ c →
      (validate_commit_script (commitMutant payer payee ssh rsh t2 k b) =
          .error (.invalidScript (commitMutant payer payee ssh rsh t2 k b)) ∨
        validate_commit_script (commitMutant payer payee ssh rsh t2 k b) =
          .error .malformedScript)) := by
  refine ⟨?_, ?_, ?_⟩
  · intro payer payee ssh rsh t1 t2 hp hq hs hr ht1 ht2
    constructor
    · exact validate_deposit_script_compiled (wfData (by omega)) (wfData (by omega))
        (wfData (by omega)) ht1
    · exact validate_commit_script_compiled (wfData (by omega)) (wfData (by omega))
        (wfData (by omega)) (wfData (by omega)) ht2
  · intro payer payee ssh t1 k c b hp hq hs ht1 hrk hb
    obtain ⟨hc79, hdropr⟩ := depositTokens_fixed hrk
    have hm := depositTokens_match (wfData (show payer.length ≤ 65535 by omega))
      (wfData (show payee.length ≤ 65535 by omega))
      (wfData (show ssh.length ≤ 65535 by omega)) (wfNum ht1)
    have hmut := validate_mutation hm hc79 hdropr hb (depositMutant payer payee ssh t1 k b)
    rcases hmut with hmut | hmut
    · left
      exact validate_deposit_script_error hmut
    · right
      exact validate_deposit_script_error hmut
  · intro payer payee ssh rsh t2 k c b hp hq hs hr ht2 hrk hb
    obtain ⟨hc79, hdropr⟩ := commitTokens_fixed hrk
    have hm := commitTokens_match (wfData (show payer.length ≤ 65535 by omega))
      (wfData (show payee.length ≤ 65535 by omega))
      (wfData (show ssh.length ≤ 65535 by omega))
      (wfData (show rsh.length ≤ 65535 by omega)) (wfNum ht2)
    have hmut := validate_mutation hm hc79 hdropr hb (commitMutant payer payee ssh rsh t2 k b)
    rcases hmut with hmut | hmut
    · left
      exact validate_commit_script_error hmut
    · right
      exact validate_commit_script_error hmut

theorem claim5_validation_identity_witness :
    (validate_deposit_script
        (compile_deposit_script (.data pkA) (.data pkB) (.data hsC) (.num 1000)) =
      .ok () ∧
     validate_commit_script
        (compile_commit_script (.data pkA) (.data pkB) (.data hsC) (.data hsD)
          (.num 513)) = .ok ()) ∧
    (validate_deposit_script (depositMutant pkA pkB hsC 5 0 98) =
        .error (.invalidScript (depositMutant pkA pkB hsC 5 0 98)) ∨
      validate_deposit_script (depositMutant pkA pkB hsC 5 0 98) =
        .error .malformedScript) ∧
    (validate_commit_script (commitMutant pkA pkB hsC hsD 5 15 98) =
        .error (.invalidScript (commitMutant pkA pkB hsC hsD 5 15 98)) ∨
      validate_commit_script (commitMutant pkA pkB hsC hsD 5 15 98) =
        .error .malformedScript) :=
  ⟨claim5_validation_identity.1 pkA pkB hsC hsD 1000 513 (by decide) (by decide)
      (by decide) (by decide) (by decide) (by decide),
    claim5_validation_identity.2.1 pkA pkB hsC 5 0 99 98 (by decide) (by decide)
      (by decide) (by decide) (by decide) (by decide),
    claim5_validation_identity.2.2 pkA pkB hsC hsD 5 15 104 98 (by decide) (by decide)
      (by decide) (by decide) (by decide) (by decide) (by decide)⟩

/-- C10 counterexample: the byte string `[0x4c]` does not match the
deposit template, yet `get_deposit_payer_pubkey` raises the bytecode
decode error (`MalformedScript`) rather than `InvalidScript` (the
candidate word cannot be decoded at all). -/
theorem claim10_counterexample :
    get_deposit_payer_pubkey [76] = .error .malformedScript ∧
    get_deposit_payer_pubkey [76] ≠ .error (.invalidScript [76]) := by decide

/-- C10 (amended): every field accessor re-validates its input against
the corresponding template before extracting any word, so whenever the
structural template validation of the input fails — with
`InvalidScript` on a template mismatch, or with the decode error on
undecodable bytecode — the accessor propagates exactly that error and
returns no data; prior validation by the caller is not required. -/
theorem claim10_accessor_revalidation :
    (∀ (s : List Nat) (e : ScriptError), validate_deposit_structure s = .error e →
      get_deposit_payer_pubkey s = .error e ∧
      get_deposit_payee_pubkey s = .error e ∧
      get_deposit_spend_secret_hash s = .error e ∧
      get_deposit_expire_time s = .error e) ∧
    (∀ (s : List Nat) (e : ScriptError), validate_commit_structure s = .error e →
      get_commit_payer_pubkey s = .error e ∧
      get_commit_payee_pubkey s = .error e ∧
      get_commit_spend_secret_hash s = .error e ∧
      get_commit_revoke_secret_hash s = .error e ∧
      get_commit_delay_time s = .error e) := by
  constructor
  · intro s e h
    have hv := validate_deposit_script_error h
    refine ⟨?_, ?_, ?_, ?_⟩
    · unfold get_deposit_payer_pubkey
      rw [hv]
      rfl
    · unfold get_deposit_payee_pubkey
      rw [hv]
      rfl
    · unfold get_deposit_spend_secret_hash
      rw [hv]
      rfl
    · unfold get_deposit_expire_time
      rw [h]
      rfl
  · intro s e h
    have hv := validate_commit_script_error h
    refine ⟨?_, ?_, ?_, ?_, ?_⟩
    · unfold get_commit_payer_pubkey
      rw [hv]
      rfl
    · unfold get_commit_payee_pubkey
      rw [hv]
      rfl
    · unfold get_commit_spend_secret_hash
      rw [hv]
      rfl
    · unfold get_commit_revoke_secret_hash
      rw [hv]
      rfl
    · unfold get_commit_delay_time
      rw [h]
      rfl

theorem claim10_accessor_revalidation_witness :
    (get_deposit_payer_pubkey [76] = .error .malformedScript ∧
     get_deposit_payee_pubkey [76] = .error .malformedScript ∧
     get_deposit_spend_secret_hash [76] = .error .malformedScript ∧
     get_deposit_expire_time [76] = .error .malformedScript) ∧
    (get_commit_payer_pubkey [118] = .error (.invalidScript [118]) ∧
     get_commit_payee_pubkey [118] = .error (.invalidScript [118]) ∧
     get_commit_spend_secret_hash [118] = .error (.invalidScript [118]) ∧
     get_commit_revoke_secret_hash [118] = .error (.invalidScript [118]) ∧
     get_commit_delay_time [118] = .error (.invalidScript [118])) :=
  ⟨claim10_accessor_revalidation.1 [76] .malformedScript (by decide),
   claim10_accessor_revalidation.2 [118] (.invalidScript [118]) (by decide)⟩

@[simp] theorem pureOk {α : Type} (a : α) : (pure a : Except ScriptError α) = .ok a := rfl

theorem get_word_compile_ok {ts : List Token} (h : ∀ tk ∈ ts, wfToken tk) {k : Nat}
    {tk : Token} (hk : ts.get? k = some tk) :
    get_word (scriptCompile ts) k = .ok (tokenWord tk) := by
  rw [get_word_wordsOf (wordsOf_compile h) k]
  have hm : (ts.map tokenWord).get? k = some (tokenWord tk) := by
    rw [List.get?_map, hk]
    rfl
  rw [hm]

/-- `_compile_payout_scriptsig(sig, spend_secret, commit_script_hex)`
(scripts.py lines 696-699): validates the commit script, then compiles
`{sig} {spend_secret} OP_1 {commit_script_hex}` (the commit hex token
becomes the final push). -/
def _compile_payout_scriptsig (sig spend_secret : Token) (commit : List Nat) :
    Except ScriptError (List Nat) := do
  validate_commit_script commit
  pure (scriptCompile [sig, spend_secret, .op 81, .data commit])

/-- `_validate_payout_scriptsig` (scripts.py lines 116-121): validate a
scriptSig against the payout reference compiled with `deadbeef`
wildcards for the signature and secret slots. -/
def _validate_payout_scriptsig (payout commit : List Nat) : Except ScriptError Unit := do
  let ref ← _compile_payout_scriptsig dbTok dbTok commit
  validateScript ref payout

/-- `get_spend_secret(payout_rawtx, commit_script_hex)` (scripts.py
lines 123-142).  Loading the raw transaction and reading input 0's
scriptSig is host-library deserialization; the embedding receives that
scriptSig directly as `spendScript`.  Only `InvalidScript` from the
template comparison is caught and turned into `None`; word 3 is decoded
and discarded as in the source; the returned secret is word 1's data
(`b2h(None)` raises `TypeError` when that word carries no data). -/
def get_spend_secret (spendScript commit : List Nat) :
    Except ScriptError (Option (List Nat)) := do
  validate_commit_script commit
  match _validate_payout_scriptsig spendScript commit with
  | .error (.invalidScript _) => pure none
  | .error e => .error e
  | .ok _ => do
    let _ ← get_word spendScript 3
    let w ← get_word spendScript 1
    let d ← wordData w
    pure (some d)

/-- An example commit script with concrete fields. -/
def commitEx : List Nat :=
  compile_commit_script (.data pkA) (.data pkB) (.data hsC) (.data hsD) (.num 1)

/-- A scriptSig whose first word is `OP_DUP` (not a data push) followed
by a pushed secret, `OP_1`, and the commit script push. -/
def spendEx : List Nat := scriptCompile [.op 118, .data secretS, .op 81, .data commitEx]

/-- The payout scriptSig shape as the claim words it: `<sig>
<spend_secret> OP_1 <commit_script>` with the signature and secret slots
data pushes. -/
def specPayoutShape (spend commit : List Nat) : Prop :=
  ∃ sig sec : List Nat, spend = scriptCompile [.data sig, .data sec, .op 81, .data commit]

theorem encodePush_head (d : List Nat) (rest : List Nat) :
    ∃ h0 t0, encodePush d ++ rest = h0 :: t0 ∧ h0 ≤ 78 := by
  unfold encodePush
  split_ifs with h1 h2 h3
  · exact ⟨d.length, d ++ rest, by simp, by omega⟩
  · exact ⟨76, d.length :: (d ++ rest), by simp, by omega⟩
  · exact ⟨77, (d.length % 256) :: (d.length / 256) :: (d ++ rest), by simp, by omega⟩
  · exact ⟨78, (d.length % 256) :: (d.length / 256 % 256) :: (d.length / 65536 % 256) ::
      (d.length / 16777216) :: (d ++ rest), by simp, by omega⟩

set_option maxRecDepth 400000 in
/-- C6 counterexample: a scriptSig whose first word is `OP_DUP` (not a
data push) does not have the claimed payout template shape `<sig>
<spend_secret> OP_1 <commit_script>`, so per the claim `get_spend_secret`
should return `None`; the code's lenient wildcard accepts it and the
word-1 data is returned instead. -/
theorem claim6_counterexample :
    ¬ specPayoutShape spendEx commitEx ∧
    get_spend_secret spendEx commitEx = .ok (some secretS) := by
  constructor
  · rintro ⟨sig, sec, heq⟩
    obtain ⟨h0, t0, hht, hle⟩ :=
      encodePush_head sig (scriptCompile [.data sec, .op 81, .data commitEx])
    rw [scriptCompile_cons] at heq
    simp only [encodeToken] at heq
    rw [hht] at heq
    have h118 : spendEx.head? = some 118 := rfl
    rw [heq] at h118
    simp only [List.head?_cons, Option.some.injEq] at h118
    omega
  · decide

/-- C6 (amended): `get_spend_secret` applied to input 0's scriptSig
returns the data of word 1 whenever the scriptSig passes the payout
template validation — whose signature and secret slots accept ANY
single word — and returns `None` exactly when that validation raises
`InvalidScript`. -/
theorem claim6_spend_secret :
    (∀ (commit : List Nat) (t0 : Token) (secret : List Nat),
      validate_commit_script commit = .ok () → commit.length ≤ 65535 →
      wfToken t0 → secret.length ≤ 65535 →
      get_spend_secret (scriptCompile [t0, .data secret, .op 81, .data commit]) commit =
        .ok (some secret)) ∧
    (∀ (spend commit x : List Nat),
      validate_commit_script commit = .ok () →
      _validate_payout_scriptsig spend commit = .error (.invalidScript x) →
      get_spend_secret spend commit = .ok none) := by
  constructor
  · intro commit t0 secret hc hclen ht0 hsec
    have hwf : ∀ tk ∈ [t0, Token.data secret, Token.op 81, Token.data commit],
        wfToken tk := by
      intro tk htk
      simp only [List.mem_cons, List.not_mem_nil, or_false] at htk
      rcases htk with rfl | rfl | rfl | rfl
      exacts [ht0, wfData hsec, by decide, wfData hclen]
    have hval : _validate_payout_scriptsig
        (scriptCompile [t0, .data secret, .op 81, .data commit]) commit = .ok () := by
      unfold _validate_payout_scriptsig _compile_payout_scriptsig
      rw [hc]
      simp only [bindOk, pureOk]
      exact validateLoop_ok _
        (.cons (tokMatch_db ht0)
          (.cons (tokMatch_db (wfData hsec))
            (.cons (tokMatch_same (by decide))
              (.cons (tokMatch_same (wfData hclen)) .nil))))
    unfold get_spend_secret
    rw [hc]
    simp only [bindOk]
    rw [hval]
    rw [get_word_compile_ok hwf
      (show ([t0, Token.data secret, Token.op 81, Token.data commit]).get? 3 =
        some (.data commit) from rfl)]
    simp only [bindOk]
    rw [get_word_compile_ok hwf
      (show ([t0, Token.data secret, Token.op 81, Token.data commit]).get? 1 =
        some (.data secret) from rfl)]
    simp only [bindOk]
    rw [wordData_tokenWord_data]
    simp only [bindOk, pureOk]
  · intro spend commit x hc hval
    unfold get_spend_secret
    rw [hc]
    simp only [bindOk]
    rw [hval]
    rfl

set_option maxRecDepth 400000 in
theorem claim6_spend_secret_witness :
    get_spend_secret (scriptCompile [.op 118, .data secretS, .op 81, .data commitEx])
      commitEx = .ok (some secretS) ∧
    get_spend_secret [0] commitEx = .ok none :=
  ⟨claim6_spend_secret.1 commitEx (.op 118) secretS (by decide) (by decide) (by decide)
      (by decide),
    claim6_spend_secret.2 [0] commitEx [0] (by decide) (by decide)⟩

/-- Value of a big-endian byte list. -/
def beToNat (s : List Nat) : Nat := s.foldl (fun acc b => 256 * acc + b) 0

/-- Modelled from the spec: the host library's DER length field reader
(short form is the byte itself; long form `0x80+k` reads `k` big-endian
bytes); missing bytes raise `UnexpectedDER`. -/
def readDerLength : List Nat → Except ScriptError (Nat × List Nat)
  | [] => .error .unexpectedDER
  | b :: t =>
    if b < 128 then .ok (b, t)
    else if b - 128 = 0 ∨ t.length < b - 128 then .error .unexpectedDER
    else .ok (beToNat (t.take (b - 128)), t.drop (b - 128))

/-- Modelled from the spec: the host library's DER INTEGER reader
(`0x02`, one length byte, big-endian magnitude); anything else raises
`UnexpectedDER`. -/
def removeInteger : List Nat → Except ScriptError (Nat × List Nat)
  | 2 :: len :: t =>
    if t.length < len then .error .unexpectedDER
    else .ok (beToNat (t.take len), t.drop len)
  | _ => .error .unexpectedDER

/-- Modelled from the spec: the host library's DER signature decoding —
a SEQUENCE (`0x30`) wrapping exactly two INTEGERs with no trailing
bytes; malformed input raises `UnexpectedDER` (section 4.4: "fail
`InvalidPayerSignature("not in DER format")` on malformed DER", the
`UnexpectedDER` being what the gate catches). -/
def sigdecode_der : List Nat → Except ScriptError (Nat × Nat)
  | 48 :: t => do
    let (len, rest1) ← readDerLength t
    if rest1.length ≠ len then .error .unexpectedDER
    else do
      let (r, rest2) ← removeInteger rest1
      let (s, rest3) ← removeInteger rest2
      if rest3 = [] then .ok (r, s) else .error .unexpectedDER
  | _ => .error .unexpectedDER

/-- `parse_signature_blob(sig_blob)`: DER-decode all but the final byte
into the `(r, s)` pair and return the final byte as the sighash type. -/
def parse_signature_blob (blob : List Nat) : Except ScriptError ((Nat × Nat) × Nat) := do
  let rs ← sigdecode_der blob.dropLast
  match blob.getLast? with
  | some ty => .ok (rs, ty)
  | none => .error .unexpectedDER

/-- `_compile_commit_scriptsig(payer_sig, payee_sig, deposit_script_hex)`
(scripts.py lines 702-705): validates the deposit script, then compiles
`OP_0 {payer_sig} {payee_sig} OP_1 {deposit_script_hex}`. -/
def _compile_commit_scriptsig (payer_sig payee_sig : Token) (deposit : List Nat) :
    Except ScriptError (List Nat) := do
  validate_deposit_script deposit
  pure (scriptCompile [.op 0, payer_sig, payee_sig, .op 81, .data deposit])

/-- The `try` block of `solve_finalize_commit` (scripts.py lines
578-599): extract word 1 of the existing scriptSig as the payer
signature blob, DER-split it, require the claimed sighash type to equal
the embedded one (a bare `assert`), recompute the sighash for the
claimed type and verify the `(r, s)` pair; a failed verification raises
`InvalidPayerSignature("invalid r s values")` inside the block.
`sigForHash` stands for `signature_for_hash_type_f` applied to the
fixed subscript, and `verify` for `ecdsa.verify` applied to the payer's
public pair. -/
def finalizeGate (existing_script : List Nat) (signature_type : Nat)
    (sigForHash : Nat → Nat) (verify : Nat → Nat × Nat → Bool) :
    Except ScriptError (List Nat) := do
  let w0 ← decodeWord existing_script
  let w1 ← decodeWord w0.2.1
  let payerSig ← wordData w1.1
  let parsed ← parse_signature_blob payerSig
  if signature_type = parsed.2 then
    if verify (sigForHash signature_type) parsed.1 then pure payerSig
    else .error (.invalidPayerSignature "invalid r s values")
  else .error .assertionError

/-- `_AbsDepositScript.solve_finalize_commit` (scripts.py lines
566-609).  External collaborators are parameters: `sigForHash` (the
sighash function for the fixed subscript), `verify` (secp256k1 ECDSA
verification under the payer's public pair), `payeeKey` (the
`hash160_lookup` result for the payee, `None` unpacking raising
`TypeError`), and `createSig` (the host `_create_script_signature`).
The existing scriptSig is validated against the create-commit
reference; only `UnexpectedDER` from the gate is converted to
`InvalidPayerSignature("not in DER format")`; the result is the
compiled `OP_0 <payer_sig> <payee_sig> OP_1` scriptSig. -/
def solve_finalize_commit (depositScript : List Nat) (signature_type : Nat)
    (existing_script : List Nat) (sigForHash : Nat → Nat)
    (verify : Nat → Nat × Nat → Bool) (payeeKey : Option Nat)
    (createSig : Nat → List Nat) : Except ScriptError (List Nat) := do
  let ref ← _compile_commit_scriptsig dbTok dbTok depositScript
  validateScript ref existing_script
  let payerSig ←
    match finalizeGate existing_script signature_type sigForHash verify with
    | .error .unexpectedDER => .error (.invalidPayerSignature "not in DER format")
    | .error e => .error e
    | .ok sig => .ok sig
  match payeeKey with
  | none => .error .typeError
  | some k => pure (scriptCompile [.op 0, .data payerSig, .data (createSig k), .op 81])

/-- An example deposit script with concrete fields. -/
def depEx : List Nat := compile_deposit_script (.data pkA) (.data pkB) (.data hsC) (.num 5)

/-- A well-formed DER signature blob `(r = 1, s = 1)` with sighash type
byte 1 appended. -/
def derBlobEx : List Nat := [48, 6, 2, 1, 1, 2, 1, 1, 1]

/-- A create-commit scriptSig embedding `derBlobEx` as the payer
signature. -/
def existingEx : List Nat :=
  scriptCompile [.op 0, .data derBlobEx, .data [9], .op 81, .data depEx]

set_option maxRecDepth 400000 in
/-- C2 counterexample: a payer signature whose embedded sighash type
byte (1) differs from the claimed signature type (2) makes
`solve_finalize_commit` fail with the bare `assert`'s `AssertionError`,
not with `InvalidPayerSignature` as the claim states for case (c). -/
theorem claim2_counterexample :
    parse_signature_blob derBlobEx = .ok ((1, 1), 1) ∧
    solve_finalize_commit depEx 2 existingEx (fun t => t) (fun _ _ => true) (some 1)
      (fun _ => [1]) = .error .assertionError ∧
    (Except.error ScriptError.assertionError : Except ScriptError (List Nat)) ≠
      .error (.invalidPayerSignature "not in DER format") ∧
    (Except.error ScriptError.assertionError : Except ScriptError (List Nat)) ≠
      .error (.invalidPayerSignature "invalid r s values") := by decide

/-- C2 (amended): with the existing create-commit scriptSig validating
against its template, `sign_finalize_commit`'s solver fails with
`InvalidPayerSignature("not in DER format")` when the embedded payer
signature blob is not DER, and with
`InvalidPayerSignature("invalid r s values")` when the blob is DER, the
sighash types agree, but the `(r, s)` pair does not verify under the
payer pubkey for the recomputed sighash; a mismatch between the claimed
and embedded sighash types instead fails the bare assertion
(`AssertionError`), before any verification. -/
theorem claim2_payer_signature_gate :
    (∀ (dep : List Nat) (sigT : Nat) (existing : List Nat) (sfh : Nat → Nat)
      (vf : Nat → Nat × Nat → Bool) (pk : Option Nat) (cs : Nat → List Nat)
      (w0 w1 : Word × List Nat × Bool) (blob : List Nat),
      validate_deposit_script dep = .ok () →
      validateScript (scriptCompile [.op 0, dbTok, dbTok, .op 81, .data dep]) existing =
        .ok () →
      decodeWord existing = .ok w0 →
      decodeWord w0.2.1 = .ok w1 →
      w1.1.data = some blob →
      parse_signature_blob blob = .error .unexpectedDER →
      solve_finalize_commit dep sigT existing sfh vf pk cs =
        .error (.invalidPayerSignature "not in DER format")) ∧
    (∀ (dep : List Nat) (sigT : Nat) (existing : List Nat) (sfh : Nat → Nat)
      (vf : Nat → Nat × Nat → Bool) (pk : Option Nat) (cs : Nat → List Nat)
      (w0 w1 : Word × List Nat × Bool) (blob : List Nat) (rs : Nat × Nat) (ty : Nat),
      validate_deposit_script dep = .ok () →
      validateScript (scriptCompile [.op 0, dbTok, dbTok, .op 81, .data dep]) existing =
        .ok () →
      decodeWord existing = .ok w0 →
      decodeWord w0.2.1 = .ok w1 →
      w1.1.data = some blob →
      parse_signature_blob blob = .ok (rs, ty) →
      sigT = ty → vf (sfh sigT) rs = false →
      solve_finalize_commit dep sigT existing sfh vf pk cs =
        .error (.invalidPayerSignature "invalid r s values")) ∧
    (∀ (dep : List Nat) (sigT : Nat) (existing : List Nat) (sfh : Nat → Nat)
      (vf : Nat → Nat × Nat → Bool) (pk : Option Nat) (cs : Nat → List Nat)
      (w0 w1 : Word × List Nat × Bool) (blob : List Nat) (rs : Nat × Nat) (ty : Nat),
      validate_deposit_script dep = .ok () →
      validateScript (scriptCompile [.op 0, dbTok, dbTok, .op 81, .data dep]) existing =
        .ok () →
      decodeWord existing = .ok w0 →
      decodeWord w0.2.1 = .ok w1 →
      w1.1.data = some blob →
      parse_signature_blob blob = .ok (rs, ty) →
      sigT ≠ ty →
      solve_finalize_commit dep sigT existing sfh vf pk cs =
        .error .assertionError) := by
  refine ⟨?_, ?_, ?_⟩
  · intro dep sigT existing sfh vf pk cs w0 w1 blob hvd hvs hd0 hd1 hdata hparse
    have hg : finalizeGate existing sigT sfh vf = .error .unexpectedDER := by
      unfold finalizeGate
      rw [hd0]
      simp only [bindOk]
      rw [hd1]
      simp only [bindOk]
      rw [show wordData w1.1 = .ok blob from by unfold wordData; rw [hdata]]
      simp only [bindOk]
      rw [hparse]
      rfl
    unfold solve_finalize_commit _compile_commit_scriptsig
    rw [hvd]
    simp only [bindOk, pureOk]
    rw [hvs]
    simp only [bindOk]
    rw [hg]
    rfl
  · intro dep sigT existing sfh vf pk cs w0 w1 blob rs ty hvd hvs hd0 hd1 hdata hparse
      hty hvf
    have hg : finalizeGate existing sigT sfh vf =
        .error (.invalidPayerSignature "invalid r s values") := by
      unfold finalizeGate
      rw [hd0]
      simp only [bindOk]
      rw [hd1]
      simp only [bindOk]
      rw [show wordData w1.1 = .ok blob from by unfold wordData; rw [hdata]]
      simp only [bindOk]
      rw [hparse]
      simp only [bindOk]
      rw [if_pos hty, if_neg (by simp [hvf])]
    unfold solve_finalize_commit _compile_commit_scriptsig
    rw [hvd]
    simp only [bindOk, pureOk]
    rw [hvs]
    simp only [bindOk]
    rw [hg]
    rfl
  · intro dep sigT existing sfh vf pk cs w0 w1 blob rs ty hvd hvs hd0 hd1 hdata hparse hty
    have hg : finalizeGate existing sigT sfh vf = .error .assertionError := by
      unfold finalizeGate
      rw [hd0]
      simp only [bindOk]
      rw [hd1]
      simp only [bindOk]
      rw [show wordData w1.1 = .ok blob from by unfold wordData; rw [hdata]]
      simp only [bindOk]
      rw [hparse]
      simp only [bindOk]
      rw [if_neg hty]
    unfold solve_finalize_commit _compile_commit_scriptsig
    rw [hvd]
    simp only [bindOk, pureOk]
    rw [hvs]
    simp only [bindOk]
    rw [hg]
    rfl

/-- A create-commit scriptSig embedding the non-DER blob `[1, 2, 3]`. -/
def existingA : List Nat :=
  scriptCompile [.op 0, .data [1, 2, 3], .data [9], .op 81, .data depEx]

set_option maxRecDepth 400000 in
theorem claim2_payer_signature_gate_witness :
    solve_finalize_commit depEx 1 existingA (fun t => t) (fun _ _ => true) (some 1)
      (fun _ => [1]) = .error (.invalidPayerSignature "not in DER format") ∧
    solve_finalize_commit depEx 1 existingEx (fun t => t) (fun _ _ => false) (some 1)
      (fun _ => [1]) = .error (.invalidPayerSignature "invalid r s values") ∧
    solve_finalize_commit depEx 2 existingEx (fun t => t) (fun _ _ => false) (some 1)
      (fun _ => [1]) = .error .assertionError :=
  ⟨claim2_payer_signature_gate.1 depEx 1 existingA (fun t => t) (fun _ _ => true)
      (some 1) (fun _ => [1])
      (⟨0, some []⟩, scriptCompile [.data [1, 2, 3], .data [9], .op 81, .data depEx],
        false)
      (⟨3, some [1, 2, 3]⟩, scriptCompile [.data [9], .op 81, .data depEx], false)
      [1, 2, 3] (by decide) (by decide) (by decide) (by decide) (by decide) (by decide),
    claim2_payer_signature_gate.2.1 depEx 1 existingEx (fun t => t) (fun _ _ => false)
      (some 1) (fun _ => [1])
      (⟨0, some []⟩, scriptCompile [.data derBlobEx, .data [9], .op 81, .data depEx],
        false)
      (⟨9, some derBlobEx⟩, scriptCompile [.data [9], .op 81, .data depEx], false)
      derBlobEx (1, 1) 1 (by decide) (by decide) (by decide) (by decide) (by decide)
      (by decide) (by decide) (by decide),
    claim2_payer_signature_gate.2.2 depEx 2 existingEx (fun t => t) (fun _ _ => false)
      (some 1) (fun _ => [1])
      (⟨0, some []⟩, scriptCompile [.data derBlobEx, .data [9], .op 81, .data depEx],
        false)
      (⟨9, some derBlobEx⟩, scriptCompile [.data [9], .op 81, .data depEx], false)
      derBlobEx (1, 1) 1 (by decide) (by decide) (by decide) (by decide) (by decide)
      (by decide) (by decide)⟩

/-- A script-handler class as an element of the host signer's
`SUBCLASSES` registry.  The payload records the sequence value and kind
baked into the handler's compiled `TEMPLATE`; the template bytes
themselves are irrelevant to the registry discipline. -/
structure Handler where
  seqValue : Int
  isCommit : Bool
  deriving DecidableEq, Repr

/-- The handler class built by `_DepositScriptHandler(expire_time)`. -/
def depositHandler (expire_time : Int) : Handler := ⟨expire_time, false⟩

/-- The handler class built by `_CommitScriptHandler(delay_time)`. -/
def commitHandler (delay_time : Int) : Handler := ⟨delay_time, true⟩

/-- The `with _DepositScriptHandler(...)` / `with _CommitScriptHandler(...)`
context-manager semantics (scripts.py lines 622-653): `__enter__` does
`SUBCLASSES.insert(0, handler)`, the body runs against the extended
registry (the host `tx.sign` only reads it), and `__exit__` does
`SUBCLASSES.pop(0)` on every exit path — Python's `with` statement runs
it on normal return and on exception alike, which the pair result
captures: the body's outcome (value or error) together with the
registry after the pop. -/
def withHandlerScope {α : Type} (h : Handler) (reg : List Handler)
    (body : List Handler → Except ScriptError α) :
    Except ScriptError α × List Handler :=
  (body (h :: reg), (h :: reg).tail)

/-- `assert(tx.bad_signature_count() == 0)` after the scope: `postOk`
stands for the host check; on failure an `AssertionError` is raised
(after the handler was already popped). -/
def finishSign (p : Except ScriptError String × List Handler) (postOk : Bool) :
    Except ScriptError String × List Handler :=
  match p.1 with
  | .error e => (.error e, p.2)
  | .ok s => if postOk then (.ok s, p.2) else (.error .assertionError, p.2)

theorem finishSign_reg (p : Except ScriptError String × List Handler) (postOk : Bool) :
    (finishSign p postOk).2 = p.2 := by
  unfold finishSign
  split
  · rfl
  · split <;> rfl

/-- `sign_deposit` (scripts.py lines 254-269): load the transaction
(`loadOk` stands for `load_tx`/key decoding, which may fail) and run the
host signer with the plain hash160 lookup; no handler is installed. -/
def sign_deposit (reg : List Handler) (loadOk : Except ScriptError Unit)
    (body : List Handler → Except ScriptError String) :
    Except ScriptError String × List Handler :=
  match loadOk with
  | .error e => (.error e, reg)
  | .ok () => (body reg, reg)

/-- `sign_created_commit` (scripts.py lines 272-293): validate the deposit
script, load the transaction, read the expire time, build the lookups
(`lookupsOk`), then sign inside a deposit-handler scope; no
bad-signature assertion afterwards. -/
def sign_created_commit (reg : List Handler) (loadOk lookupsOk : Except ScriptError Unit)
    (body : List Handler → Except ScriptError String) (dep : List Nat) :
    Except ScriptError String × List Handler :=
  match validate_deposit_script dep with
  | .error e => (.error e, reg)
  | .ok () =>
    match loadOk with
    | .error e => (.error e, reg)
    | .ok () =>
      match get_deposit_expire_time dep with
      | .error e => (.error e, reg)
      | .ok t =>
        match lookupsOk with
        | .error e => (.error e, reg)
        | .ok () => withHandlerScope (depositHandler t) reg body

/-- `sign_finalize_commit` (scripts.py lines 296-317): as
`sign_created_commit`, followed by the bad-signature assertion. -/
def sign_finalize_commit (reg : List Handler) (loadOk lookupsOk : Except ScriptError Unit)
    (body : List Handler → Except ScriptError String) (dep : List Nat) (postOk : Bool) :
    Except ScriptError String × List Handler :=
  match validate_deposit_script dep with
  | .error e => (.error e, reg)
  | .ok () =>
    match loadOk with
    | .error e => (.error e, reg)
    | .ok () =>
      match get_deposit_expire_time dep with
      | .error e => (.error e, reg)
      | .ok t =>
        match lookupsOk with
        | .error e => (.error e, reg)
        | .ok () => finishSign (withHandlerScope (depositHandler t) reg body) postOk

/-- `_sign_deposit_recover` (scripts.py lines 401-411). -/
def _sign_deposit_recover (reg : List Handler) (loadOk lookupsOk : Except ScriptError Unit)
    (body : List Handler → Except ScriptError String) (script : List Nat) (postOk : Bool) :
    Except ScriptError String × List Handler :=
  match loadOk with
  | .error e => (.error e, reg)
  | .ok () =>
    match get_deposit_expire_time script with
    | .error e => (.error e, reg)
    | .ok t =>
      match lookupsOk with
      | .error e => (.error e, reg)
      | .ok () => finishSign (withHandlerScope (depositHandler t) reg body) postOk

/-- `_sign_commit_recover` (scripts.py lines 414-425). -/
def _sign_commit_recover (reg : List Handler) (loadOk lookupsOk : Except ScriptError Unit)
    (body : List Handler → Except ScriptError String) (script : List Nat) (postOk : Bool) :
    Except ScriptError String × List Handler :=
  match loadOk with
  | .error e => (.error e, reg)
  | .ok () =>
    match get_commit_delay_time script with
    | .error e => (.error e, reg)
    | .ok t =>
      match lookupsOk with
      | .error e => (.error e, reg)
      | .ok () => finishSign (withHandlerScope (commitHandler t) reg body) postOk

/-- `sign_expire_recover` (scripts.py lines 383-398). -/
def sign_expire_recover (reg : List Handler) (loadOk lookupsOk : Except ScriptError Unit)
    (body : List Handler → Except ScriptError String) (dep : List Nat) (postOk : Bool) :
    Except ScriptError String × List Handler :=
  match validate_deposit_script dep with
  | .error e => (.error e, reg)
  | .ok () => _sign_deposit_recover reg loadOk lookupsOk body dep postOk

/-- `sign_change_recover` (scripts.py lines 359-380): after validating
the deposit script, the provided spend secret's hash160 must equal the
embedded spend-secret hash (a bare `assert`) before `_sign_deposit_recover`
is invoked. -/
def sign_change_recover (hash160 : List Nat → List Nat) (reg : List Handler)
    (loadOk lookupsOk : Except ScriptError Unit)
    (body : List Handler → Except ScriptError String) (dep spend_secret : List Nat)
    (postOk : Bool) : Except ScriptError String × List Handler :=
  match validate_deposit_script dep with
  | .error e => (.error e, reg)
  | .ok () =>
    match get_deposit_spend_secret_hash dep with
    | .error e => (.error e, reg)
    | .ok ssh =>
      if hash160 spend_secret = ssh then
        _sign_deposit_recover reg loadOk lookupsOk body dep postOk
      else (.error .assertionError, reg)

/-- `sign_revoke_recover` (scripts.py lines 320-337). -/
def sign_revoke_recover (reg : List Handler) (loadOk lookupsOk : Except ScriptError Unit)
    (body : List Handler → Except ScriptError String) (commit : List Nat) (postOk : Bool) :
    Except ScriptError String × List Handler :=
  match validate_commit_script commit with
  | .error e => (.error e, reg)
  | .ok () => _sign_commit_recover reg loadOk lookupsOk body commit postOk

/-- `sign_payout_recover` (scripts.py lines 340-356). -/
def sign_payout_recover (reg : List Handler) (loadOk lookupsOk : Except ScriptError Unit)
    (body : List Handler → Except ScriptError String) (commit : List Nat) (postOk : Bool) :
    Except ScriptError String × List Handler :=
  match validate_commit_script commit with
  | .error e => (.error e, reg)
  | .ok () => _sign_commit_recover reg loadOk lookupsOk body commit postOk

theorem _sign_deposit_recover_reg (reg : List Handler)
    (loadOk lookupsOk : Except ScriptError Unit)
    (body : List Handler → Except ScriptError String) (script : List Nat) (postOk : Bool) :
    (_sign_deposit_recover reg loadOk lookupsOk body script postOk).2 = reg := by
  unfold _sign_deposit_recover
  split
  · rfl
  · split
    · rfl
    · split
      · rfl
      · rw [finishSign_reg]
        rfl

theorem _sign_commit_recover_reg (reg : List Handler)
    (loadOk lookupsOk : Except ScriptError Unit)
    (body : List Handler → Except ScriptError String) (script : List Nat) (postOk : Bool) :
    (_sign_commit_recover reg loadOk lookupsOk body script postOk).2 = reg := by
  unfold _sign_commit_recover
  split
  · rfl
  · split
    · rfl
    · split
      · rfl
      · rw [finishSign_reg]
        rfl

/-- C7: the handler scope pushes the matcher at the head of the registry
for the body and pops it on every exit path, and each `sign_*`
operation — whether it returns a signed transaction or fails at any
step (validation, loading, lookups, the signing body, or the final
assertion) — leaves the `SUBCLASSES` registry exactly as it was. -/
theorem claim7_scoped_dispatch :
    (∀ (h : Handler) (reg : List Handler)
      (body : List Handler → Except ScriptError String),
      withHandlerScope h reg body = (body (h :: reg), reg)) ∧
    (∀ reg loadOk body, (sign_deposit reg loadOk body).2 = reg) ∧
    (∀ reg loadOk lookupsOk body dep,
      (sign_created_commit reg loadOk lookupsOk body dep).2 = reg) ∧
    (∀ reg loadOk lookupsOk body dep postOk,
      (sign_finalize_commit reg loadOk lookupsOk body dep postOk).2 = reg) ∧
    (∀ hash160 reg loadOk lookupsOk body dep secret postOk,
      (sign_change_recover hash160 reg loadOk lookupsOk body dep secret postOk).2 = reg) ∧
    (∀ reg loadOk lookupsOk body dep postOk,
      (sign_expire_recover reg loadOk lookupsOk body dep postOk).2 = reg) ∧
    (∀ reg loadOk lookupsOk body commit postOk,
      (sign_payout_recover reg loadOk lookupsOk body commit postOk).2 = reg) ∧
    (∀ reg loadOk lookupsOk body commit postOk,
      (sign_revoke_recover reg loadOk lookupsOk body commit postOk).2 = reg) := by
  refine ⟨fun h reg body => rfl, ?_, ?_, ?_, ?_, ?_, ?_, ?_⟩
  · intro reg loadOk body
    unfold sign_deposit
    split <;> rfl
  · intro reg loadOk lookupsOk body dep
    unfold sign_created_commit
    split
    · rfl
    · split
      · rfl
      · split
        · rfl
        · split <;> rfl
  · intro reg loadOk lookupsOk body dep postOk
    unfold sign_finalize_commit
    split
    · rfl
    · split
      · rfl
      · split
        · rfl
        · split
          · rfl
          · rw [finishSign_reg]
            rfl
  · intro hash160 reg loadOk lookupsOk body dep secret postOk
    unfold sign_change_recover
    split
    · rfl
    · split
      · rfl
      · split
        · exact _sign_deposit_recover_reg reg loadOk lookupsOk body dep postOk
        · rfl
  · intro reg loadOk lookupsOk body dep postOk
    unfold sign_expire_recover
    split
    · rfl
    · exact _sign_deposit_recover_reg reg loadOk lookupsOk body dep postOk
  · intro reg loadOk lookupsOk body commit postOk
    unfold sign_payout_recover
    split
    · rfl
    · exact _sign_commit_recover_reg reg loadOk lookupsOk body commit postOk
  · intro reg loadOk lookupsOk body commit postOk
    unfold sign_revoke_recover
    split
    · rfl
    · exact _sign_commit_recover_reg reg loadOk lookupsOk body commit postOk

/-- C8: `sign_change_recover` checks `hash160(spend_secret)` against the
deposit script's embedded spend-secret hash before `_sign_deposit_recover`
is reached: on a mismatch it fails with the assertion error without
consulting the transaction loader, the lookups, or the signing body
(the outcome is the same for every such collaborator and the registry
is untouched), and signing proceeds — as exactly
`_sign_deposit_recover` — only when the hashes agree.  `hash160` stands
for the host `encoding.hash160`. -/
theorem claim8_change_recover_precondition :
    (∀ (hash160 : List Nat → List Nat) (reg : List Handler)
      (loadOk lookupsOk : Except ScriptError Unit)
      (body : List Handler → Except ScriptError String) (dep secret : List Nat)
      (postOk : Bool) (ssh : List Nat),
      validate_deposit_script dep = .ok () →
      get_deposit_spend_secret_hash dep = .ok ssh →
      hash160 secret ≠ ssh →
      sign_change_recover hash160 reg loadOk lookupsOk body dep secret postOk =
        (.error .assertionError, reg)) ∧
    (∀ (hash160 : List Nat → List Nat) (reg : List Handler)
      (loadOk lookupsOk : Except ScriptError Unit)
      (body : List Handler → Except ScriptError String) (dep secret : List Nat)
      (postOk : Bool) (ssh : List Nat),
      validate_deposit_script dep = .ok () →
      get_deposit_spend_secret_hash dep = .ok ssh →
      hash160 secret = ssh →
      sign_change_recover hash160 reg loadOk lookupsOk body dep secret postOk =
        _sign_deposit_recover reg loadOk lookupsOk body dep postOk) := by
  constructor
  · intro hash160 reg loadOk lookupsOk body dep secret postOk ssh hv hs hne
    unfold sign_change_recover
    rw [hv, hs]
    show (if hash160 secret = ssh then
        _sign_deposit_recover reg loadOk lookupsOk body dep postOk
      else (.error .assertionError, reg)) = (.error .assertionError, reg)
    rw [if_neg hne]
  · intro hash160 reg loadOk lookupsOk body dep secret postOk ssh hv hs heq
    unfold sign_change_recover
    rw [hv, hs]
    show (if hash160 secret = ssh then
        _sign_deposit_recover reg loadOk lookupsOk body dep postOk
      else (.error .assertionError, reg)) =
      _sign_deposit_recover reg loadOk lookupsOk body dep postOk
    rw [if_pos heq]

set_option maxRecDepth 400000 in
theorem claim8_change_recover_precondition_witness :
    sign_change_recover (fun _ => List.replicate 20 9) [] (.ok ()) (.ok ())
      (fun _ => .ok "signed") depEx secretS true = (.error .assertionError, []) ∧
    sign_change_recover (fun _ => hsC) [] (.ok ()) (.ok ())
      (fun _ => .ok "signed") depEx secretS true =
      _sign_deposit_recover [] (.ok ()) (.ok ()) (fun _ => .ok "signed") depEx true :=
  ⟨claim8_change_recover_precondition.1 (fun _ => List.replicate 20 9) [] (.ok ()) (.ok ())
      (fun _ => .ok "signed") depEx secretS true hsC (by decide) (by decide) (by decide),
    claim8_change_recover_precondition.2 (fun _ => hsC) [] (.ok ()) (.ok ())
      (fun _ => .ok "signed") depEx secretS true hsC (by decide) (by decide) (by decide)⟩
